import Mathlib

/-!
Flight-Scheduler: the runway scheduler of `src/CPP/atc-scheduler.cpp`.

A shallow embedding of `ATCScheduler` and the properties of its operations.

Modelling conventions.

* `int` fields are `Int`.  Signed overflow is undefined behaviour in C++, so the
  model describes the executions on which no `int` operation overflows.
* `std::vector<Flight>` is `List Flight`; `push_back` appends at the end,
  `front()` is the head, `erase(begin())` drops the head.
* Console output is a list of `Output` records holding the values printed (layout of
  the text is left out).
* `std::sort` is library code.  The operations that call it take the sort as a
  parameter; `SortContract` is what the C++ standard promises about it (the result
  is a permutation of the range and is ordered by the comparator).  Every general
  theorem is stated for an arbitrary sort that keeps this contract, so none depends on
  the order in which `std::sort` leaves flights of equal priority.  `insertionSort` is
  one sort that keeps the contract; it is not `std::sort`, and it serves only to
  evaluate the model on the short queues of the examples.
* `front()` on an empty vector is undefined behaviour: the model returns `none`.
-/

namespace ATC

/-! ## Data model -/

/-- The `enum class FlightType` (lines 11-18). -/
inductive FlightType where
  | EMERGENCY
  | LOW_FUEL
  | VIP
  | INTERNATIONAL
  | DOMESTIC
  | CARGO
  deriving DecidableEq

/-- The function `flightTypeToString` (lines 20-30).  Its `default` branch is not taken
by any value of the enum. -/
def flightTypeToString (type : FlightType) : String :=
  match type with
  | FlightType.EMERGENCY => "Emergency"
  | FlightType.LOW_FUEL => "Low Fuel"
  | FlightType.VIP => "VIP"
  | FlightType.INTERNATIONAL => "International"
  | FlightType.DOMESTIC => "Domestic"
  | FlightType.CARGO => "Cargo"

/-- The `struct Flight` (lines 33-44). -/
structure Flight where
  id : String
  type : FlightType
  arrivalTime : Int
  burstTime : Int
  waitingTime : Int
  priority : Int
  deriving DecidableEq

/-- The constructor `Flight(id, type, arrivalTime, burstTime)` (lines 42-43):
`waitingTime(0), priority(0)`. -/
def Flight.create (id : String) (type : FlightType) (arrivalTime burstTime : Int) : Flight :=
  { id := id, type := type, arrivalTime := arrivalTime, burstTime := burstTime,
    waitingTime := 0, priority := 0 }

/-- The private data members of `class ATCScheduler` (lines 49-53). -/
structure ATCScheduler where
  waitingQueue : List Flight
  isRunwayBusy : Bool
  currentFlightOnRunway : Flight
  runwayTimeLeft : Int
  simulationCycle : Int
  deriving DecidableEq

/-- One line of the waiting table of `printStatus` (lines 109-112). -/
structure StatusRow where
  id : String
  type : String
  waitingTime : Int
  priority : Int
  deriving DecidableEq

/-- What the program writes to `cout`, one record per message. -/
inductive Output where
  /-- The message of `addFlight` (line 78). -/
  | entered (cycle : Int) (id : String) (type : String)
  /-- The message "has cleared the runway" (line 127). -/
  | cleared (cycle : Int) (id : String)
  /-- The message "Scheduling Flight ... onto the runway" (lines 152-153). -/
  | scheduled (cycle : Int) (id : String) (waited : Int)
  /-- The block printed by `printStatus` (lines 83-115): the cycle, the runway line
  (`none` for FREE, else id, type and time left), the queue size and the table rows
  (no rows for the `<Empty>` line). -/
  | status (cycle : Int) (runway : Option (String × String × Int)) (size : Nat)
      (rows : List StatusRow)
  deriving DecidableEq

/-! ## Operations -/

/-- The `switch` of `calculatePriority` (lines 58-66). -/
def basePriority (type : FlightType) : Int :=
  match type with
  | FlightType.EMERGENCY => 600
  | FlightType.LOW_FUEL => 500
  | FlightType.VIP => 400
  | FlightType.INTERNATIONAL => 300
  | FlightType.DOMESTIC => 200
  | FlightType.CARGO => 100

/-- The method `calculatePriority` (lines 57-70); the updated flight is returned. -/
def calculatePriority (flight : Flight) : Flight :=
  { flight with priority := basePriority flight.type + flight.waitingTime * 10 }

/-- The comparator handed to `std::sort` (lines 100-102 and 141-143):
`a.priority > b.priority`. -/
def priorityGreater (a b : Flight) : Bool :=
  decide (a.priority > b.priority)

/-- The type of `std::sort` on a `vector<Flight>` with a comparator. -/
abbrev Sorter := (Flight → Flight → Bool) → List Flight → List Flight

/-- What the C++ standard promises of `std::sort` with the comparator of this program:
the result is a rearrangement of the range, and no element is ordered by the comparator
before one that precedes it. -/
structure SortContract (sort : Sorter) : Prop where
  perm : ∀ l : List Flight, (sort priorityGreater l).Perm l
  sorted : ∀ l : List Flight,
    (sort priorityGreater l).Pairwise (fun a b => priorityGreater b a = false)

/-- One step of insertion sort: `x` is put into the sorted part in front of the first
element that the comparator orders after it, so behind every element it does not beat. -/
def insertSorted (comp : Flight → Flight → Bool) (x : Flight) : List Flight → List Flight
  | [] => [x]
  | y :: ys => if comp x y then x :: y :: ys else y :: insertSorted comp x ys

/-- An insertion sort: the elements are taken from left to right and each is placed into
the sorted part before it.  It is one function that keeps `SortContract` and is used to
evaluate the examples.  It is not `std::sort`: it keeps flights of equal priority in
their order at every length, which `std::sort` does not promise, and no general theorem
is stated for it. -/
def insertionSort : Sorter := fun comp l =>
  l.foldl (fun acc x => insertSorted comp x acc) []

/-- The constructor `ATCScheduler()` (line 73). -/
def ATCScheduler.init : ATCScheduler :=
  { waitingQueue := []
    isRunwayBusy := false
    currentFlightOnRunway := Flight.create "" FlightType.DOMESTIC 0 0
    runwayTimeLeft := 0
    simulationCycle := 0 }

/-- The method `addFlight` (lines 76-79). -/
def ATCScheduler.addFlight (s : ATCScheduler) (flight : Flight) : ATCScheduler × List Output :=
  ({ s with waitingQueue := s.waitingQueue ++ [flight] },
   [Output.entered s.simulationCycle flight.id (flightTypeToString flight.type)])

/-- The table row printed for a flight (lines 109-112). -/
def statusRow (flight : Flight) : StatusRow :=
  { id := flight.id, type := flightTypeToString flight.type,
    waitingTime := flight.waitingTime, priority := flight.priority }

/-- The method `printStatus` (lines 82-116).  It sorts a copy of the queue. -/
def ATCScheduler.printStatus (sort : Sorter) (s : ATCScheduler) : ATCScheduler × List Output :=
  let runway :=
    if s.isRunwayBusy then
      some (s.currentFlightOnRunway.id, flightTypeToString s.currentFlightOnRunway.type,
        s.runwayTimeLeft)
    else none
  let rows :=
    if s.waitingQueue.isEmpty then []
    else
      let sortedQueue := sort priorityGreater s.waitingQueue
      sortedQueue.map statusRow
  (s, [Output.status s.simulationCycle runway s.waitingQueue.length rows])

/-- Step 1 of `runCycle`, "Update the runway status" (lines 124-130). -/
def ATCScheduler.updateRunway (s : ATCScheduler) : ATCScheduler × List Output :=
  if s.isRunwayBusy then
    let s1 := { s with runwayTimeLeft := s.runwayTimeLeft - 1 }
    if s1.runwayTimeLeft ≤ 0 then
      ({ s1 with isRunwayBusy := false },
       [Output.cleared s1.simulationCycle s1.currentFlightOnRunway.id])
    else (s1, [])
  else (s, [])

/-- The body of the aging loop (lines 134-135). -/
def ageFlight (flight : Flight) : Flight :=
  calculatePriority { flight with waitingTime := flight.waitingTime + 1 }

/-- Step 2 of `runCycle`, "Update all waiting flights (Aging)" (lines 133-136). -/
def ATCScheduler.ageWaiting (s : ATCScheduler) : ATCScheduler :=
  { s with waitingQueue := s.waitingQueue.map ageFlight }

/-- Step 3 of `runCycle`, "Schedule a new flight if the runway is free" (lines 139-154).
The queue is sorted in place; `none` stands for `front()` on an empty vector. -/
def ATCScheduler.scheduleNext (sort : Sorter) (s : ATCScheduler) :
    Option (ATCScheduler × List Output) :=
  if !s.isRunwayBusy && !s.waitingQueue.isEmpty then
    match sort priorityGreater s.waitingQueue with
    | [] => none
    | front :: rest =>
      some ({ s with
                waitingQueue := rest
                currentFlightOnRunway := front
                isRunwayBusy := true
                runwayTimeLeft := front.burstTime },
            [Output.scheduled s.simulationCycle front.id front.waitingTime])
  else some (s, [])

/-- The method `runCycle` (lines 120-157). -/
def ATCScheduler.runCycle (sort : Sorter) (s : ATCScheduler) :
    Option (ATCScheduler × List Output) :=
  let s0 := { s with simulationCycle := s.simulationCycle + 1 }
  let (s1, out1) := s0.updateRunway
  let s2 := s1.ageWaiting
  match s2.scheduleNext sort with
  | none => none
  | some (s3, out3) =>
    let (s4, out4) := s3.printStatus sort
    some (s4, out1 ++ out3 ++ out4)

/-- The method `hasPendingFlights` (lines 160-162). -/
def ATCScheduler.hasPendingFlights (s : ATCScheduler) : Bool :=
  s.isRunwayBusy || !s.waitingQueue.isEmpty

/-- Whether a message is the "Scheduling Flight" message of the dispatch step. -/
def Output.isScheduled : Output → Bool
  | Output.scheduled _ _ _ => true
  | _ => false

/-- Whether a message is the "has cleared the runway" message. -/
def Output.isCleared : Output → Bool
  | Output.cleared _ _ => true
  | _ => false

/-! ## Sequences of calls -/

/-- A call of one of the two state-changing public methods. -/
inductive Call where
  | addFlight (flight : Flight)
  | runCycle
  deriving DecidableEq

/-- The state after one call. -/
def ATCScheduler.call (sort : Sorter) (s : ATCScheduler) : Call → Option ATCScheduler
  | Call.addFlight flight => some (s.addFlight flight).1
  | Call.runCycle => (s.runCycle sort).map Prod.fst

/-- The state after a sequence of calls, made from left to right. -/
def ATCScheduler.calls (sort : Sorter) (s : ATCScheduler) : List Call → Option ATCScheduler
  | [] => some s
  | c :: cs => (s.call sort c).bind (fun s1 => ATCScheduler.calls sort s1 cs)

/-- The flights handed to `addFlight` in a sequence of calls. -/
def addedFlights : List Call → List Flight
  | [] => []
  | Call.addFlight flight :: cs => flight :: addedFlights cs
  | Call.runCycle :: cs => addedFlights cs

/-! ## States used as examples -/

/-- The calls `main` makes before its loop (lines 169-172). -/
def mainAdds : List Call :=
  [Call.addFlight (Flight.create "DL456" FlightType.DOMESTIC 0 4),
   Call.addFlight (Flight.create "BA288" FlightType.INTERNATIONAL 0 6),
   Call.addFlight (Flight.create "FX123" FlightType.CARGO 1 5),
   Call.addFlight (Flight.create "AA789" FlightType.DOMESTIC 1 4)]

/-- The scheduler of `main` when its loop starts: the four flights wait, nothing has run. -/
def mainStart : ATCScheduler :=
  { ATCScheduler.init with
    waitingQueue :=
      [Flight.create "DL456" FlightType.DOMESTIC 0 4,
       Flight.create "BA288" FlightType.INTERNATIONAL 0 6,
       Flight.create "FX123" FlightType.CARGO 1 5,
       Flight.create "AA789" FlightType.DOMESTIC 1 4] }

/-- Two Domestic flights handed to `addFlight`, the one with the later `arrivalTime`
first. -/
def tieAdds : List Call :=
  [Call.addFlight (Flight.create "LATE" FlightType.DOMESTIC 1 4),
   Call.addFlight (Flight.create "EARLY" FlightType.DOMESTIC 0 4)]

/-- The scheduler after `tieAdds`. -/
def tieStart : ATCScheduler :=
  { ATCScheduler.init with
    waitingQueue :=
      [Flight.create "LATE" FlightType.DOMESTIC 1 4,
       Flight.create "EARLY" FlightType.DOMESTIC 0 4] }

/-- The flight with its `arrivalTime` mirrored between 0 and 1; nothing the comparator
reads is changed. -/
def mirrorArrival (flight : Flight) : Flight :=
  { flight with arrivalTime := 1 - flight.arrivalTime }

/-- The scheduler `tieStart` with the two arrival times exchanged: now the flight added
first has the earlier `arrivalTime`. -/
def tieMirror : ATCScheduler :=
  { ATCScheduler.init with waitingQueue := tieStart.waitingQueue.map mirrorArrival }

/-- A sort that sees the flights through the comparator only, as `std::sort` does:
relabelling the flights in a way the comparator cannot tell leaves every flight in the
place it would have gone to. -/
def ComparatorOnly (sort : Sorter) : Prop :=
  ∀ (relabel : Flight → Flight) (l : List Flight),
    (∀ a b, priorityGreater (relabel a) (relabel b) = priorityGreater a b) →
    sort priorityGreater (l.map relabel) = (sort priorityGreater l).map relabel

/-- A Cargo flight added and dispatched, then an Emergency flight added. -/
def cargoThenEmergency : List Call :=
  [Call.addFlight (Flight.create "FX123" FlightType.CARGO 1 5),
   Call.runCycle,
   Call.addFlight (Flight.create "EMD01" FlightType.EMERGENCY 4 3)]

/-- The scheduler after `cargoThenEmergency`: the Cargo flight holds the runway with
five cycles left and the Emergency flight waits. -/
def cargoOnRunway : ATCScheduler :=
  { waitingQueue := [Flight.create "EMD01" FlightType.EMERGENCY 4 3]
    isRunwayBusy := true
    currentFlightOnRunway :=
      { Flight.create "FX123" FlightType.CARGO 1 5 with waitingTime := 1, priority := 110 }
    runwayTimeLeft := 5
    simulationCycle := 1 }

/-- The fields of a flight that aging does not recompute, with its `waitingTime`. -/
def Flight.record (flight : Flight) : String × FlightType × Int × Int × Int :=
  (flight.id, flight.type, flight.arrivalTime, flight.burstTime, flight.waitingTime)

/-- The same record with one more cycle waited. -/
def Flight.recordAged (flight : Flight) : String × FlightType × Int × Int × Int :=
  (flight.id, flight.type, flight.arrivalTime, flight.burstTime, flight.waitingTime + 1)

/-- The runway invariant: a busy runway has between 1 and the `burstTime` of its flight
cycles left, a free runway has none. -/
def RunwayInv (s : ATCScheduler) : Prop :=
  (s.isRunwayBusy = true ↔ 1 ≤ s.runwayTimeLeft) ∧
  (s.isRunwayBusy = true →
    1 ≤ s.runwayTimeLeft ∧ s.runwayTimeLeft ≤ s.currentFlightOnRunway.burstTime) ∧
  (s.isRunwayBusy = false → s.runwayTimeLeft = 0)

/-- The ids of the flights the scheduler holds: the flight on a busy runway and the
flights waiting. -/
def ATCScheduler.liveIds (s : ATCScheduler) : List String :=
  (if s.isRunwayBusy then [s.currentFlightOnRunway.id] else []) ++
    s.waitingQueue.map Flight.id

/-- The calls of `main` up to its sixth cycle, with the two flights it adds on the way
(lines 169-185). -/
def mainCalls : List Call :=
  mainAdds ++
  [Call.runCycle, Call.runCycle,
   Call.addFlight (Flight.create "UA901" FlightType.INTERNATIONAL 2 6),
   Call.runCycle, Call.runCycle,
   Call.addFlight (Flight.create "EMD01" FlightType.EMERGENCY 4 3),
   Call.runCycle, Call.runCycle]

/-- A flight built with `burstTime` 0. -/
def zeroBurst : Flight := Flight.create "ZB000" FlightType.CARGO 0 0

/-- The first flight `main` builds (line 169). -/
def domesticFlight : Flight := Flight.create "DL456" FlightType.DOMESTIC 0 4

/-- The number of `runCycle` calls in a sequence of calls. -/
def cycleCount : List Call → Nat
  | [] => 0
  | Call.addFlight _ :: cs => cycleCount cs
  | Call.runCycle :: cs => cycleCount cs + 1

/-- The quotient `a / b` rounded up, for a positive divisor. -/
def ceilDiv (a b : Int) : Int := (a + b - 1) / b

/-- The cycles still needed until nothing is pending: the cycles left on a busy runway,
or the one cycle that puts a waiting flight on a free runway, and then the `burstTime`
of everybody waiting. -/
def ATCScheduler.cyclesToDrain (s : ATCScheduler) : Int :=
  (if s.isRunwayBusy then s.runwayTimeLeft
   else if s.waitingQueue.isEmpty then 0 else 1) +
    (s.waitingQueue.map Flight.burstTime).sum

/-- The first cycle of `main`, evaluated with the insertion sort: the state it leaves and
what it prints.  BA288 alone has the highest priority. -/
def mainFirstCycle : ATCScheduler × List Output :=
  (mainStart.runCycle insertionSort).getD (mainStart, [])

/-- The calls of `main` after its first cycle up to its sixth (lines 176-188). -/
def mainSecondToSixth : List Call :=
  [Call.runCycle,
   Call.addFlight (Flight.create "UA901" FlightType.INTERNATIONAL 2 6),
   Call.runCycle, Call.runCycle,
   Call.addFlight (Flight.create "EMD01" FlightType.EMERGENCY 4 3),
   Call.runCycle, Call.runCycle]

/-- The scheduler of `main` after its sixth cycle, evaluated with the insertion sort:
BA288 holds the runway with one cycle left and five flights wait. -/
def mainSixth : ATCScheduler :=
  (ATCScheduler.init.calls insertionSort mainCalls).getD ATCScheduler.init

/-- The two flights of the scenario of the specification, as `main` builds them. -/
def flightA : Flight := Flight.create "DL456" FlightType.DOMESTIC 0 4

/-- The International flight of the scenario. -/
def flightB : Flight := Flight.create "BA288" FlightType.INTERNATIONAL 0 6

/-- A Cargo flight that has waited 31 cycles. -/
def agedCargo : Flight :=
  { Flight.create "FX123" FlightType.CARGO 0 5 with waitingTime := 31, priority := 410 }

/-- A VIP flight as the constructor builds it. -/
def freshVip : Flight := Flight.create "VP001" FlightType.VIP 31 2

/-- Calls that lead to the aged Cargo flight and the fresh VIP flight: an Emergency
flight of `burstTime` 31 and the Cargo flight are added, 31 cycles run, the VIP flight is
added. -/
def cargoVipCalls : List Call :=
  [Call.addFlight (Flight.create "EM031" FlightType.EMERGENCY 0 31),
   Call.addFlight (Flight.create "FX123" FlightType.CARGO 0 5)] ++
  List.replicate 31 Call.runCycle ++
  [Call.addFlight freshVip]

/-- The scheduler after `cargoVipCalls`: the Emergency flight is in its last cycle on the
runway, the Cargo flight has waited 31 cycles, the VIP flight has just come. -/
def cargoVipState : ATCScheduler :=
  { waitingQueue := [agedCargo, freshVip]
    isRunwayBusy := true
    currentFlightOnRunway :=
      { Flight.create "EM031" FlightType.EMERGENCY 0 31 with waitingTime := 1, priority := 610 }
    runwayTimeLeft := 1
    simulationCycle := 31 }

/-- The scheduler with nobody waiting and the runway free after three idle cycles. -/
def idleState : ATCScheduler :=
  { ATCScheduler.init with simulationCycle := 3 }

/-! ## The insertion sort meets the contract of `std::sort` -/

theorem insertSorted_perm (comp : Flight → Flight → Bool) (x : Flight) (l : List Flight) :
    (insertSorted comp x l).Perm (x :: l) := by
  induction l with
  | nil => simp [insertSorted]
  | cons y ys ih =>
    simp only [insertSorted]
    split
    · exact List.Perm.refl _
    · exact (List.Perm.cons y ih).trans (List.Perm.swap x y ys)

theorem insertionSort_snoc (comp : Flight → Flight → Bool) (l : List Flight) (x : Flight) :
    insertionSort comp (l ++ [x]) = insertSorted comp x (insertionSort comp l) := by
  simp [insertionSort, List.foldl_append]

theorem insertionSort_nil (comp : Flight → Flight → Bool) : insertionSort comp [] = [] := rfl

theorem insertionSort_perm (comp : Flight → Flight → Bool) (l : List Flight) :
    (insertionSort comp l).Perm l := by
  induction l using List.reverseRecOn with
  | nil => simp [insertionSort_nil]
  | append_singleton l x ih =>
    rw [insertionSort_snoc]
    refine (insertSorted_perm comp x _).trans ?_
    refine (List.Perm.cons x ih).trans ?_
    exact (List.perm_append_singleton x l).symm

theorem insertSorted_sorted (x : Flight) (l : List Flight)
    (h : l.Pairwise (fun a b => priorityGreater b a = false)) :
    (insertSorted priorityGreater x l).Pairwise (fun a b => priorityGreater b a = false) := by
  induction l with
  | nil => simp [insertSorted]
  | cons y ys ih =>
    rw [List.pairwise_cons] at h
    simp only [insertSorted]
    split
    · rename_i hxy
      refine List.Pairwise.cons ?_ (List.Pairwise.cons h.1 h.2)
      intro b hb
      simp only [priorityGreater, decide_eq_true_eq, decide_eq_false_iff_not, not_lt,
        gt_iff_lt] at hxy h ⊢
      rcases List.mem_cons.1 hb with rfl | hb
      · exact le_of_lt hxy
      · exact le_trans (h.1 b hb) (le_of_lt hxy)
    · rename_i hxy
      refine List.Pairwise.cons ?_ (ih h.2)
      intro b hb
      rcases List.mem_cons.1 ((insertSorted_perm priorityGreater x ys).subset hb) with rfl | hb
      · simpa [priorityGreater] using hxy
      · exact h.1 b hb

theorem insertionSort_sorted (l : List Flight) :
    (insertionSort priorityGreater l).Pairwise (fun a b => priorityGreater b a = false) := by
  induction l using List.reverseRecOn with
  | nil => simp [insertionSort_nil]
  | append_singleton l x ih =>
    rw [insertionSort_snoc]
    exact insertSorted_sorted x _ ih

/-- The insertion sort does what `std::sort` promises. -/
theorem insertionSort_contract : SortContract insertionSort :=
  ⟨insertionSort_perm priorityGreater, insertionSort_sorted⟩

/-! ## The shape of one cycle -/

/-- A sorted non-empty queue is non-empty: the `front()` of the dispatch step exists. -/
theorem sort_ne_nil {sort : Sorter} (hs : SortContract sort) {l : List Flight} (hl : l ≠ []) :
    ∃ front rest, sort priorityGreater l = front :: rest := by
  cases hsl : sort priorityGreater l with
  | nil =>
    have hp := hs.perm l
    rw [hsl] at hp
    exact absurd hp.symm.eq_nil hl
  | cons front rest => exact ⟨front, rest, rfl⟩

/-- A cycle that finds the runway busy with two or more cycles left: only the status
block is printed. -/
theorem runCycle_busy (sort : Sorter) (s : ATCScheduler) (hb : s.isRunwayBusy = true)
    (ht : 2 ≤ s.runwayTimeLeft) :
    ∃ s1 : ATCScheduler,
      s1 = { waitingQueue := s.waitingQueue.map ageFlight
             isRunwayBusy := true
             currentFlightOnRunway := s.currentFlightOnRunway
             runwayTimeLeft := s.runwayTimeLeft - 1
             simulationCycle := s.simulationCycle + 1 } ∧
      s.runCycle sort = some (s1, (s1.printStatus sort).2) := by
  have h1 : ¬ (s.runwayTimeLeft - 1 ≤ 0) := by omega
  refine ⟨_, rfl, ?_⟩
  simp [ATCScheduler.runCycle, ATCScheduler.updateRunway, ATCScheduler.ageWaiting,
    ATCScheduler.scheduleNext, ATCScheduler.printStatus, hb, h1]

/-- A cycle that finds nobody waiting: the runway is ticked, nothing is scheduled. -/
theorem runCycle_empty (sort : Sorter) (s : ATCScheduler) (hq : s.waitingQueue = []) :
    ∃ s1 : ATCScheduler,
      s1 = { waitingQueue := []
             isRunwayBusy := s.isRunwayBusy && decide (0 < s.runwayTimeLeft - 1)
             currentFlightOnRunway := s.currentFlightOnRunway
             runwayTimeLeft :=
               if s.isRunwayBusy = true then s.runwayTimeLeft - 1 else s.runwayTimeLeft
             simulationCycle := s.simulationCycle + 1 } ∧
      s.runCycle sort = some (s1,
        (if s.isRunwayBusy = true ∧ s.runwayTimeLeft - 1 ≤ 0 then
          [Output.cleared (s.simulationCycle + 1) s.currentFlightOnRunway.id] else []) ++
        (s1.printStatus sort).2) := by
  refine ⟨_, rfl, ?_⟩
  cases hb : s.isRunwayBusy
  · simp [ATCScheduler.runCycle, ATCScheduler.updateRunway, ATCScheduler.ageWaiting,
      ATCScheduler.scheduleNext, ATCScheduler.printStatus, hb, hq]
  · by_cases h1 : s.runwayTimeLeft - 1 ≤ 0
    · have h2 : ¬ (0 < s.runwayTimeLeft - 1) := by omega
      simp [ATCScheduler.runCycle, ATCScheduler.updateRunway, ATCScheduler.ageWaiting,
        ATCScheduler.scheduleNext, ATCScheduler.printStatus, hb, hq, h1, h2]
    · have h2 : 0 < s.runwayTimeLeft - 1 := by omega
      simp [ATCScheduler.runCycle, ATCScheduler.updateRunway, ATCScheduler.ageWaiting,
        ATCScheduler.scheduleNext, ATCScheduler.printStatus, hb, hq, h1, h2]

/-- A cycle that has the runway free after its first step while somebody waits: the
front of the sorted aged queue goes onto the runway. -/
theorem runCycle_dispatch {sort : Sorter} (hs : SortContract sort) (s : ATCScheduler)
    (hfree : s.isRunwayBusy = false ∨ s.runwayTimeLeft - 1 ≤ 0) (hq : s.waitingQueue ≠ []) :
    ∃ (front : Flight) (rest : List Flight) (s1 : ATCScheduler),
      sort priorityGreater (s.waitingQueue.map ageFlight) = front :: rest ∧
      s1 = { waitingQueue := rest
             isRunwayBusy := true
             currentFlightOnRunway := front
             runwayTimeLeft := front.burstTime
             simulationCycle := s.simulationCycle + 1 } ∧
      s.runCycle sort = some (s1,
        (if s.isRunwayBusy = true then
          [Output.cleared (s.simulationCycle + 1) s.currentFlightOnRunway.id] else []) ++
        [Output.scheduled (s.simulationCycle + 1) front.id front.waitingTime] ++
        (s1.printStatus sort).2) := by
  have hq2 : s.waitingQueue.map ageFlight ≠ [] := by simpa using hq
  obtain ⟨front, rest, hfr⟩ := sort_ne_nil hs hq2
  refine ⟨front, rest, _, hfr, rfl, ?_⟩
  cases hb : s.isRunwayBusy
  · simp [ATCScheduler.runCycle, ATCScheduler.updateRunway, ATCScheduler.ageWaiting,
      ATCScheduler.scheduleNext, ATCScheduler.printStatus, hb, hq, hfr]
  · have h1 : s.runwayTimeLeft - 1 ≤ 0 := by
      rcases hfree with h | h
      · rw [hb] at h; exact absurd h (by decide)
      · exact h
    simp [ATCScheduler.runCycle, ATCScheduler.updateRunway, ATCScheduler.ageWaiting,
      ATCScheduler.scheduleNext, ATCScheduler.printStatus, hb, hq, hfr, h1]

/-- The three ways a cycle can go. -/
theorem runCycle_split (s : ATCScheduler) :
    (s.isRunwayBusy = true ∧ 2 ≤ s.runwayTimeLeft) ∨ s.waitingQueue = [] ∨
    ((s.isRunwayBusy = false ∨ s.runwayTimeLeft - 1 ≤ 0) ∧ s.waitingQueue ≠ []) := by
  by_cases hq : s.waitingQueue = []
  · exact Or.inr (Or.inl hq)
  · cases hb : s.isRunwayBusy
    · exact Or.inr (Or.inr ⟨Or.inl rfl, hq⟩)
    · by_cases ht : 2 ≤ s.runwayTimeLeft
      · exact Or.inl ⟨rfl, ht⟩
      · exact Or.inr (Or.inr ⟨Or.inr (by omega), hq⟩)

/-- With a sort that keeps its contract a cycle always returns. -/
theorem runCycle_isSome {sort : Sorter} (hs : SortContract sort) (s : ATCScheduler) :
    (s.runCycle sort).isSome = true := by
  rcases runCycle_split s with h | h | h
  · obtain ⟨s1, -, h1⟩ := runCycle_busy sort s h.1 h.2
    simp [h1]
  · obtain ⟨s1, -, h1⟩ := runCycle_empty sort s h
    simp [h1]
  · obtain ⟨f, r, s1, -, -, h1⟩ := runCycle_dispatch hs s h.1 h.2
    simp [h1]

/-- The front of a sorted queue has the greatest priority. -/
theorem front_max {sort : Sorter} (hs : SortContract sort) {l rest : List Flight}
    {front : Flight} (h : sort priorityGreater l = front :: rest) :
    ∀ g ∈ rest, g.priority ≤ front.priority := by
  intro g hg
  have hsorted := hs.sorted l
  rw [h, List.pairwise_cons] at hsorted
  simpa [priorityGreater] using hsorted.1 g hg

/-- Each aged flight is a flight of the queue with one more cycle waited and the
priority computed from that. -/
theorem mem_map_ageFlight {l : List Flight} {g : Flight} (h : g ∈ l.map ageFlight) :
    ∃ f ∈ l, g = { f with waitingTime := f.waitingTime + 1
                          priority := basePriority f.type + (f.waitingTime + 1) * 10 } := by
  obtain ⟨f, hf, rfl⟩ := List.mem_map.1 h
  exact ⟨f, hf, rfl⟩

/-- Every cycle returns, and it goes one of two ways.  Either nothing is scheduled: the
queue is the aged queue in its old order and the flight recorded for the runway stays.
Or the "Scheduling" message is printed: the runway was free after step 1, somebody was
waiting, and the front of the sorted aged queue is moved onto the runway. -/
theorem runCycle_cases {sort : Sorter} (hs : SortContract sort) (s : ATCScheduler) :
    ∃ s1 out, s.runCycle sort = some (s1, out) ∧
      s1.simulationCycle = s.simulationCycle + 1 ∧
      ((out.any Output.isScheduled = false ∧
        ¬ ((s.isRunwayBusy = false ∨ s.runwayTimeLeft - 1 ≤ 0) ∧ s.waitingQueue ≠ []) ∧
        s1.waitingQueue = s.waitingQueue.map ageFlight ∧
        s1.currentFlightOnRunway = s.currentFlightOnRunway) ∨
       (out.any Output.isScheduled = true ∧
        ((s.isRunwayBusy = false ∨ s.runwayTimeLeft - 1 ≤ 0) ∧ s.waitingQueue ≠ []) ∧
        sort priorityGreater (s.waitingQueue.map ageFlight) =
          s1.currentFlightOnRunway :: s1.waitingQueue ∧
        s1.isRunwayBusy = true ∧
        s1.runwayTimeLeft = s1.currentFlightOnRunway.burstTime)) := by
  rcases runCycle_split s with h | h | h
  · obtain ⟨s1, hs1, h1⟩ := runCycle_busy sort s h.1 h.2
    refine ⟨s1, _, h1, by rw [hs1], Or.inl ⟨?_, ?_, by rw [hs1], by rw [hs1]⟩⟩
    · simp [ATCScheduler.printStatus, Output.isScheduled]
    · rintro ⟨h2 | h2, -⟩
      · rw [h.1] at h2; exact absurd h2 (by decide)
      · omega
  · obtain ⟨s1, hs1, h1⟩ := runCycle_empty sort s h
    refine ⟨s1, _, h1, by rw [hs1], Or.inl ⟨?_, ?_, by rw [hs1, h]; rfl, by rw [hs1]⟩⟩
    · split <;> simp [ATCScheduler.printStatus, Output.isScheduled]
    · exact fun h2 => h2.2 h
  · obtain ⟨front, rest, s1, hsort, hs1, h1⟩ := runCycle_dispatch hs s h.1 h.2
    refine ⟨s1, _, h1, by rw [hs1], Or.inr ⟨?_, h, by rw [hs1]; exact hsort, by rw [hs1],
      by rw [hs1]⟩⟩
    simp [Output.isScheduled]

/-! ## The example states are reached by calls -/

/-- The four `addFlight` calls of `main` lead from the constructor state to `mainStart`,
whatever the sort. -/
theorem mainStart_reached (sort : Sorter) :
    ATCScheduler.init.calls sort mainAdds = some mainStart := rfl

/-- The two `addFlight` calls of `tieAdds` lead to `tieStart`, whatever the sort. -/
theorem tieStart_reached (sort : Sorter) :
    ATCScheduler.init.calls sort tieAdds = some tieStart := rfl

/-! ## C1: dispatch picks a flight of greatest priority -/

/-- C1. Whatever sort keeps the contract of `std::sort`, no cycle reaches `front()` on
an empty queue (every cycle returns), and a cycle that has the runway free after its
first step (it was free, or the decrement of line 125 leaves `runwayTimeLeft <= 0`)
while the queue is non-empty puts on the runway a flight taken from the
queue (a queued flight as aged in this cycle; it and the flights left waiting are exactly
the aged queue) whose recomputed priority is at least that of every flight left waiting. -/
theorem C1_dispatch_picks_max_priority (sort : Sorter) (hs : SortContract sort)
    (s : ATCScheduler)
    (hfree : s.isRunwayBusy = false ∨ s.runwayTimeLeft - 1 ≤ 0)
    (hq : s.waitingQueue ≠ []) :
    (∀ t : ATCScheduler, (t.runCycle sort).isSome = true) ∧
    ∃ s1 out, s.runCycle sort = some (s1, out) ∧
      s1.isRunwayBusy = true ∧
      (∃ f ∈ s.waitingQueue, s1.currentFlightOnRunway =
        { f with waitingTime := f.waitingTime + 1
                 priority := basePriority f.type + (f.waitingTime + 1) * 10 }) ∧
      (s1.currentFlightOnRunway :: s1.waitingQueue).Perm (s.waitingQueue.map ageFlight) ∧
      ∀ g ∈ s1.waitingQueue, g.priority ≤ s1.currentFlightOnRunway.priority := by
  refine ⟨runCycle_isSome hs, ?_⟩
  obtain ⟨front, rest, s1, hsort, hs1, hrun⟩ := runCycle_dispatch hs s hfree hq
  have hperm : (front :: rest).Perm (s.waitingQueue.map ageFlight) := by
    rw [← hsort]; exact hs.perm _
  refine ⟨s1, _, hrun, ?_, ?_, ?_, ?_⟩
  · rw [hs1]
  · rw [hs1]
    exact mem_map_ageFlight (hperm.subset (List.mem_cons_self front rest))
  · rw [hs1]; exact hperm
  · rw [hs1]; exact front_max hs hsort

/-- C1 at the start of `main`: the runway is free, four flights wait, and the cycle
dispatches one of them. -/
theorem C1_dispatch_picks_max_priority_witness :
    SortContract insertionSort ∧
    (mainStart.isRunwayBusy = false ∨ mainStart.runwayTimeLeft - 1 ≤ 0) ∧
    mainStart.waitingQueue ≠ [] ∧
    ((∀ t : ATCScheduler, (t.runCycle insertionSort).isSome = true) ∧
    ∃ s1 out, mainStart.runCycle insertionSort = some (s1, out) ∧
      s1.isRunwayBusy = true ∧
      (∃ f ∈ mainStart.waitingQueue, s1.currentFlightOnRunway =
        { f with waitingTime := f.waitingTime + 1
                 priority := basePriority f.type + (f.waitingTime + 1) * 10 }) ∧
      (s1.currentFlightOnRunway :: s1.waitingQueue).Perm
        (mainStart.waitingQueue.map ageFlight) ∧
      ∀ g ∈ s1.waitingQueue, g.priority ≤ s1.currentFlightOnRunway.priority) :=
  ⟨insertionSort_contract, Or.inl rfl, by decide,
    C1_dispatch_picks_max_priority insertionSort insertionSort_contract mainStart (Or.inl rfl) (by decide)⟩

/-! ## C2: the priority formula -/

/-- C2. The base priorities are Emergency 600, LowFuel 500, VIP 400, International 300,
Domestic 200, Cargo 100; and after any cycle every flight still waiting, and the flight
dispatched in the cycle when it printed "Scheduling", has
`priority = basePriority type + 10 * waitingTime`. -/
theorem C2_priority_formula (sort : Sorter) (hs : SortContract sort) (s : ATCScheduler) :
    (basePriority FlightType.EMERGENCY = 600 ∧ basePriority FlightType.LOW_FUEL = 500 ∧
     basePriority FlightType.VIP = 400 ∧ basePriority FlightType.INTERNATIONAL = 300 ∧
     basePriority FlightType.DOMESTIC = 200 ∧ basePriority FlightType.CARGO = 100) ∧
    ∃ s1 out, s.runCycle sort = some (s1, out) ∧
      (∀ g ∈ s1.waitingQueue, g.priority = basePriority g.type + 10 * g.waitingTime) ∧
      (out.any Output.isScheduled = true →
        s1.currentFlightOnRunway.priority =
          basePriority s1.currentFlightOnRunway.type +
            10 * s1.currentFlightOnRunway.waitingTime) := by
  refine ⟨⟨rfl, rfl, rfl, rfl, rfl, rfl⟩, ?_⟩
  have aged : ∀ g ∈ s.waitingQueue.map ageFlight,
      g.priority = basePriority g.type + 10 * g.waitingTime := by
    intro g hg
    obtain ⟨f, -, rfl⟩ := mem_map_ageFlight hg
    simp only
    ring
  obtain ⟨s1, out, hrun, -, h | h⟩ := runCycle_cases hs s
  · refine ⟨s1, out, hrun, ?_, ?_⟩
    · rw [h.2.2.1]; exact aged
    · intro hsch; rw [h.1] at hsch; exact absurd hsch (by decide)
  · have hperm := hs.perm (s.waitingQueue.map ageFlight)
    rw [h.2.2.1] at hperm
    refine ⟨s1, out, hrun, ?_, ?_⟩
    · intro g hg
      exact aged g (hperm.subset (List.mem_cons_of_mem _ hg))
    · intro _
      exact aged _ (hperm.subset (List.mem_cons_self _ _))

/-- C2 at the start of `main`: the first cycle prints "Scheduling", and the formula holds
for the flight dispatched and the three left waiting. -/
theorem C2_priority_formula_witness :
    SortContract insertionSort ∧
    (mainStart.runCycle insertionSort).map (fun r => r.2.any Output.isScheduled) = some true ∧
    ((basePriority FlightType.EMERGENCY = 600 ∧ basePriority FlightType.LOW_FUEL = 500 ∧
     basePriority FlightType.VIP = 400 ∧ basePriority FlightType.INTERNATIONAL = 300 ∧
     basePriority FlightType.DOMESTIC = 200 ∧ basePriority FlightType.CARGO = 100) ∧
    ∃ s1 out, mainStart.runCycle insertionSort = some (s1, out) ∧
      (∀ g ∈ s1.waitingQueue, g.priority = basePriority g.type + 10 * g.waitingTime) ∧
      (out.any Output.isScheduled = true →
        s1.currentFlightOnRunway.priority =
          basePriority s1.currentFlightOnRunway.type +
            10 * s1.currentFlightOnRunway.waitingTime)) :=
  ⟨insertionSort_contract, by decide, C2_priority_formula insertionSort insertionSort_contract mainStart⟩

/-! ## C3: ties at dispatch -/

/-- C3 fails as stated.  `main`-style calls add the Domestic flight LATE (arrivalTime 1)
and then the Domestic flight EARLY (arrivalTime 0).  The first cycle gives both the
priority 210 and dispatches LATE, though EARLY shares the highest priority and arrived
earlier.  The comparator of line 142 is false between equal priorities, so a sort of
this range of two flights has no comparison that tells it to exchange them, and the
library implementations of `std::sort` leave them in their order; the insertion sort
used to evaluate the cycle does the same. -/
theorem C3_counterexample :
    ATCScheduler.calls insertionSort ATCScheduler.init tieAdds = some tieStart ∧
    ∃ s1 out, tieStart.runCycle insertionSort = some (s1, out) ∧
      out.any Output.isScheduled = true ∧
      s1.currentFlightOnRunway.id = "LATE" ∧
      ∃ g ∈ s1.waitingQueue, g.id = "EARLY" ∧
        g.priority = s1.currentFlightOnRunway.priority ∧
        g.arrivalTime < s1.currentFlightOnRunway.arrivalTime := by
  refine ⟨by decide, ?_⟩
  refine ⟨{ waitingQueue := [{ Flight.create "EARLY" FlightType.DOMESTIC 0 4 with
                                waitingTime := 1, priority := 210 }]
            isRunwayBusy := true
            currentFlightOnRunway := { Flight.create "LATE" FlightType.DOMESTIC 1 4 with
                                        waitingTime := 1, priority := 210 }
            runwayTimeLeft := 4
            simulationCycle := 1 }, _, rfl, by decide, rfl, ?_⟩
  exact ⟨_, List.mem_singleton.2 rfl, rfl, rfl, by decide⟩

/-- C3 as amended.  Whatever sort keeps the contract of `std::sort`, a cycle that
dispatches (the runway is free after its first step and somebody waits) takes one of the
waiting flights that share the highest priority: the dispatched flight is a flight of the
aged queue, no flight of the aged queue has a greater priority, so it has the priority of
every flight of highest priority, and the flights left waiting are the others.  Nothing
is said about which of the tied flights it is. -/
theorem C3_dispatched_shares_highest_priority (sort : Sorter) (hs : SortContract sort)
    (s : ATCScheduler)
    (hfree : s.isRunwayBusy = false ∨ s.runwayTimeLeft - 1 ≤ 0)
    (hq : s.waitingQueue ≠ []) :
    ∃ s1 out, s.runCycle sort = some (s1, out) ∧
      out.any Output.isScheduled = true ∧
      s1.currentFlightOnRunway ∈ s.waitingQueue.map ageFlight ∧
      (∀ g ∈ s.waitingQueue.map ageFlight,
        g.priority ≤ s1.currentFlightOnRunway.priority) ∧
      (∀ g ∈ s.waitingQueue.map ageFlight,
        (∀ f ∈ s.waitingQueue.map ageFlight, f.priority ≤ g.priority) →
        g.priority = s1.currentFlightOnRunway.priority) ∧
      (s1.currentFlightOnRunway :: s1.waitingQueue).Perm (s.waitingQueue.map ageFlight) := by
  obtain ⟨s1, out, hrun, -, h | h⟩ := runCycle_cases hs s
  · exact absurd ⟨hfree, hq⟩ h.2.1
  · have hperm := hs.perm (s.waitingQueue.map ageFlight)
    rw [h.2.2.1] at hperm
    have hmem : s1.currentFlightOnRunway ∈ s.waitingQueue.map ageFlight :=
      hperm.subset (List.mem_cons_self _ _)
    have hmax : ∀ g ∈ s.waitingQueue.map ageFlight,
        g.priority ≤ s1.currentFlightOnRunway.priority := by
      intro g hg
      rcases List.mem_cons.1 (hperm.symm.subset hg) with rfl | hg
      · exact le_refl _
      · exact front_max hs h.2.2.1 g hg
    refine ⟨s1, out, hrun, h.1, hmem, hmax, ?_, hperm⟩
    intro g hg htop
    exact le_antisymm (hmax g hg) (htop _ hmem)

/-- The amended C3 at the two tied Domestic flights: the flight dispatched has their
common priority and the other one is left waiting. -/
theorem C3_dispatched_shares_highest_priority_witness :
    SortContract insertionSort ∧
    (tieStart.isRunwayBusy = false ∨ tieStart.runwayTimeLeft - 1 ≤ 0) ∧
    tieStart.waitingQueue ≠ [] ∧
    ∃ s1 out, tieStart.runCycle insertionSort = some (s1, out) ∧
      out.any Output.isScheduled = true ∧
      s1.currentFlightOnRunway ∈ tieStart.waitingQueue.map ageFlight ∧
      (∀ g ∈ tieStart.waitingQueue.map ageFlight,
        g.priority ≤ s1.currentFlightOnRunway.priority) ∧
      (∀ g ∈ tieStart.waitingQueue.map ageFlight,
        (∀ f ∈ tieStart.waitingQueue.map ageFlight, f.priority ≤ g.priority) →
        g.priority = s1.currentFlightOnRunway.priority) ∧
      (s1.currentFlightOnRunway :: s1.waitingQueue).Perm
        (tieStart.waitingQueue.map ageFlight) :=
  ⟨insertionSort_contract, Or.inl rfl, by decide,
    C3_dispatched_shares_highest_priority insertionSort insertionSort_contract tieStart
      (Or.inl rfl) (by decide)⟩

theorem insertSorted_map (relabel : Flight → Flight)
    (h : ∀ a b, priorityGreater (relabel a) (relabel b) = priorityGreater a b)
    (x : Flight) (l : List Flight) :
    insertSorted priorityGreater (relabel x) (l.map relabel) =
      (insertSorted priorityGreater x l).map relabel := by
  induction l with
  | nil => rfl
  | cons y ys ih =>
    simp only [List.map_cons, insertSorted, h]
    split
    · rfl
    · rw [ih]; rfl

/-- The insertion sort sees the flights through the comparator only. -/
theorem insertionSort_comparatorOnly : ComparatorOnly insertionSort := by
  intro relabel l h
  induction l using List.reverseRecOn with
  | nil => rfl
  | append_singleton l x ih =>
    rw [List.map_append, List.map_singleton, insertionSort_snoc, insertionSort_snoc, ih,
      insertSorted_map relabel h]

/-- The failure of C3 does not hang on which flight the sort leaves in front of a tie.
Whatever sort keeps the contract of `std::sort` and sees the flights through the
comparator only, on `tieStart` or on `tieMirror` the cycle dispatches a flight while a
flight of the same priority and earlier `arrivalTime` is left waiting. -/
theorem tie_break_ignores_arrivalTime (sort : Sorter) (hs : SortContract sort)
    (hc : ComparatorOnly sort) :
    ∃ s, (s = tieStart ∨ s = tieMirror) ∧
      ∃ s1 out, s.runCycle sort = some (s1, out) ∧
        out.any Output.isScheduled = true ∧
        ∃ g ∈ s1.waitingQueue,
          g.priority = s1.currentFlightOnRunway.priority ∧
          g.arrivalTime < s1.currentFlightOnRunway.arrivalTime := by
  obtain ⟨s1, out, hrun, -, h | h⟩ := runCycle_cases hs tieStart
  · exact absurd ⟨Or.inl rfl, by decide⟩ h.2.1
  · obtain ⟨hsch, -, hsort, -, -⟩ := h
    have hperm := hs.perm (tieStart.waitingQueue.map ageFlight)
    rw [hsort] at hperm
    have hmem : s1.currentFlightOnRunway ∈ tieStart.waitingQueue.map ageFlight :=
      hperm.subset (List.mem_cons_self _ _)
    have hmem2 : s1.currentFlightOnRunway =
          ageFlight (Flight.create "LATE" FlightType.DOMESTIC 1 4) ∨
        s1.currentFlightOnRunway =
          ageFlight (Flight.create "EARLY" FlightType.DOMESTIC 0 4) := by
      simpa [tieStart] using hmem
    rcases hmem2 with hcur | hcur
    · -- the flight added first is in front: `tieStart` shows the failure
      have hrest : s1.waitingQueue =
          [ageFlight (Flight.create "EARLY" FlightType.DOMESTIC 0 4)] := by
        rw [hcur] at hperm
        exact List.perm_singleton.1 ((List.perm_cons _).1 hperm)
      refine ⟨tieStart, Or.inl rfl, s1, out, hrun, hsch, ?_⟩
      rw [hrest, hcur]
      exact ⟨_, List.mem_singleton.2 rfl, rfl, by decide⟩
    · -- the flight added second is in front: so it is on `tieMirror`
      have hrest : s1.waitingQueue =
          [ageFlight (Flight.create "LATE" FlightType.DOMESTIC 1 4)] := by
        rw [hcur] at hperm
        have hswap : (ageFlight (Flight.create "EARLY" FlightType.DOMESTIC 0 4) ::
            s1.waitingQueue).Perm
            [ageFlight (Flight.create "EARLY" FlightType.DOMESTIC 0 4),
             ageFlight (Flight.create "LATE" FlightType.DOMESTIC 1 4)] :=
          hperm.trans (List.Perm.swap _ _ _)
        exact List.perm_singleton.1 ((List.perm_cons _).1 hswap)
      have hmirror : sort priorityGreater (tieMirror.waitingQueue.map ageFlight) =
          [mirrorArrival (ageFlight (Flight.create "EARLY" FlightType.DOMESTIC 0 4)),
           mirrorArrival (ageFlight (Flight.create "LATE" FlightType.DOMESTIC 1 4))] := by
        have hq : tieMirror.waitingQueue.map ageFlight =
            (tieStart.waitingQueue.map ageFlight).map mirrorArrival := by decide
        rw [hq, hc mirrorArrival _ (fun _ _ => rfl), hsort, hcur, hrest]
        rfl
      obtain ⟨s2, out2, hrun2, -, h2 | h2⟩ := runCycle_cases hs tieMirror
      · exact absurd ⟨Or.inl rfl, by decide⟩ h2.2.1
      · obtain ⟨hsch2, -, hsort2, -, -⟩ := h2
        rw [hmirror] at hsort2
        simp only [List.cons.injEq] at hsort2
        refine ⟨tieMirror, Or.inr rfl, s2, out2, hrun2, hsch2, ?_⟩
        rw [← hsort2.2, ← hsort2.1]
        exact ⟨_, List.mem_singleton.2 rfl, rfl, by decide⟩

/-! ## C4: aging -/

theorem map_record_ageFlight (l : List Flight) :
    (l.map ageFlight).map Flight.record = l.map Flight.recordAged := by
  rw [List.map_map]
  rfl

theorem map_id_ageFlight (l : List Flight) :
    (l.map ageFlight).map Flight.id = l.map Flight.id := by
  rw [List.map_map]
  rfl

/-- C4. A cycle adds exactly 1 to the `waitingTime` of every flight that waited when it
began and keeps its id, type, arrivalTime and burstTime: the records of the flights
after the cycle (those still waiting, with the dispatched flight when "Scheduling" was
printed) are the records of the flights before it with one more cycle waited, each
once.  Without a dispatch the queue order is kept too. -/
theorem C4_aging_once_each (sort : Sorter) (hs : SortContract sort) (s : ATCScheduler) :
    ∃ s1 out, s.runCycle sort = some (s1, out) ∧
      (out.any Output.isScheduled = true →
        ((s1.currentFlightOnRunway :: s1.waitingQueue).map Flight.record).Perm
          (s.waitingQueue.map Flight.recordAged)) ∧
      (out.any Output.isScheduled = false →
        s1.waitingQueue.map Flight.record = s.waitingQueue.map Flight.recordAged) := by
  obtain ⟨s1, out, hrun, -, h | h⟩ := runCycle_cases hs s
  · refine ⟨s1, out, hrun, ?_, ?_⟩
    · intro hsch; rw [h.1] at hsch; exact absurd hsch (by decide)
    · intro _; rw [h.2.2.1]; exact map_record_ageFlight _
  · refine ⟨s1, out, hrun, ?_, ?_⟩
    · intro _
      have hperm := hs.perm (s.waitingQueue.map ageFlight)
      rw [h.2.2.1] at hperm
      rw [← map_record_ageFlight]
      exact hperm.map _
    · intro hsch; rw [h.1] at hsch; exact absurd hsch (by decide)

/-- C4 at the start of `main`, where the first cycle prints "Scheduling". -/
theorem C4_aging_once_each_witness :
    SortContract insertionSort ∧
    (mainStart.runCycle insertionSort).map (fun r => r.2.any Output.isScheduled) = some true ∧
    ∃ s1 out, mainStart.runCycle insertionSort = some (s1, out) ∧
      (out.any Output.isScheduled = true →
        ((s1.currentFlightOnRunway :: s1.waitingQueue).map Flight.record).Perm
          (mainStart.waitingQueue.map Flight.recordAged)) ∧
      (out.any Output.isScheduled = false →
        s1.waitingQueue.map Flight.record = mainStart.waitingQueue.map Flight.recordAged) :=
  ⟨insertionSort_contract, by decide, C4_aging_once_each insertionSort insertionSort_contract mainStart⟩

/-! ## C5: no preemption -/

/-- C5. When the runway is busy with two or more cycles left, a cycle keeps the flight on
the runway, takes exactly 1 from `runwayTimeLeft`, keeps the runway busy, prints no
"Scheduling" message and removes nobody from the queue (the same flights in the same
order, each aged by one cycle), whatever their priorities and whatever the sort does. -/
theorem C5_no_preemption (sort : Sorter) (s : ATCScheduler)
    (hb : s.isRunwayBusy = true) (ht : 2 ≤ s.runwayTimeLeft) :
    ∃ s1 out, s.runCycle sort = some (s1, out) ∧
      s1.currentFlightOnRunway = s.currentFlightOnRunway ∧
      s1.runwayTimeLeft = s.runwayTimeLeft - 1 ∧
      s1.isRunwayBusy = true ∧
      out.any Output.isScheduled = false ∧
      s1.waitingQueue.length = s.waitingQueue.length ∧
      s1.waitingQueue.map Flight.record = s.waitingQueue.map Flight.recordAged := by
  obtain ⟨s1, hs1, hrun⟩ := runCycle_busy sort s hb ht
  refine ⟨s1, _, hrun, by rw [hs1], by rw [hs1], by rw [hs1], ?_, ?_, ?_⟩
  · simp [ATCScheduler.printStatus, Output.isScheduled]
  · rw [hs1]; simp
  · rw [hs1]; exact map_record_ageFlight _

/-- C5 with a Cargo flight on the runway (five cycles left) and an Emergency flight
waiting: the state is reached by calls, and the Cargo flight stays. -/
theorem C5_no_preemption_witness :
    ATCScheduler.calls insertionSort ATCScheduler.init cargoThenEmergency = some cargoOnRunway ∧
    cargoOnRunway.isRunwayBusy = true ∧ 2 ≤ cargoOnRunway.runwayTimeLeft ∧
    ∃ s1 out, cargoOnRunway.runCycle insertionSort = some (s1, out) ∧
      s1.currentFlightOnRunway = cargoOnRunway.currentFlightOnRunway ∧
      s1.runwayTimeLeft = cargoOnRunway.runwayTimeLeft - 1 ∧
      s1.isRunwayBusy = true ∧
      out.any Output.isScheduled = false ∧
      s1.waitingQueue.length = cargoOnRunway.waitingQueue.length ∧
      s1.waitingQueue.map Flight.record = cargoOnRunway.waitingQueue.map Flight.recordAged :=
  ⟨by decide, rfl, by decide, C5_no_preemption insertionSort cargoOnRunway rfl (by decide)⟩

/-! ## C6: the runway invariant -/

/-- The invariant carried through a sequence of calls: the runway invariant, and every
waiting flight needs at least one cycle on the runway. -/
theorem runwayInv_addFlight (s : ATCScheduler) (flight : Flight)
    (h : RunwayInv s ∧ ∀ f ∈ s.waitingQueue, 1 ≤ f.burstTime) (hf : 1 ≤ flight.burstTime) :
    RunwayInv (s.addFlight flight).1 ∧
      ∀ f ∈ (s.addFlight flight).1.waitingQueue, 1 ≤ f.burstTime := by
  refine ⟨h.1, ?_⟩
  intro f hfm
  rcases List.mem_append.1 hfm with hfm | hfm
  · exact h.2 f hfm
  · rw [List.mem_singleton.1 hfm]; exact hf

theorem burstTime_of_mem_aged {l : List Flight} (h : ∀ f ∈ l, 1 ≤ f.burstTime) :
    ∀ g ∈ l.map ageFlight, 1 ≤ g.burstTime := by
  intro g hg
  obtain ⟨f, hf, rfl⟩ := mem_map_ageFlight hg
  exact h f hf

theorem runwayInv_runCycle {sort : Sorter} (hs : SortContract sort) (s : ATCScheduler)
    (h : RunwayInv s ∧ ∀ f ∈ s.waitingQueue, 1 ≤ f.burstTime) :
    ∃ s1 out, s.runCycle sort = some (s1, out) ∧
      (RunwayInv s1 ∧ ∀ f ∈ s1.waitingQueue, 1 ≤ f.burstTime) := by
  obtain ⟨⟨hiff, hbusy, hfree⟩, hburst⟩ := h
  rcases runCycle_split s with hc | hc | hc
  · obtain ⟨s1, hs1, hrun⟩ := runCycle_busy sort s hc.1 hc.2
    have hb := hbusy hc.1
    refine ⟨s1, _, hrun, ⟨?_, ?_, ?_⟩, ?_⟩
    · rw [hs1]; simp only [true_iff]; omega
    · rw [hs1]; intro _; simp only; omega
    · rw [hs1]; intro hf; simp at hf
    · rw [hs1]; exact burstTime_of_mem_aged hburst
  · obtain ⟨s1, hs1, hrun⟩ := runCycle_empty sort s hc
    refine ⟨s1, _, hrun, ?_, by rw [hs1]; simp⟩
    cases hb : s.isRunwayBusy
    · have h0 := hfree hb
      rw [hs1]
      simp [RunwayInv, hb, h0]
    · have h1 := hbusy hb
      rw [hs1]
      by_cases h2 : 0 < s.runwayTimeLeft - 1
      · simp only [RunwayInv, hb, h2, decide_True, Bool.and_self, if_true, true_iff,
          true_implies]
        refine ⟨by omega, ⟨by omega, by omega⟩, ?_⟩
        intro hf; simp at hf
      · have h3 : s.runwayTimeLeft - 1 = 0 := by omega
        simp [RunwayInv, hb, h3]
  · obtain ⟨front, rest, s1, hsort, hs1, hrun⟩ := runCycle_dispatch hs s hc.1 hc.2
    have hperm : (front :: rest).Perm (s.waitingQueue.map ageFlight) := by
      rw [← hsort]; exact hs.perm _
    have haged := burstTime_of_mem_aged hburst
    have hfront : 1 ≤ front.burstTime := haged _ (hperm.subset (List.mem_cons_self _ _))
    refine ⟨s1, _, hrun, ⟨?_, ?_, ?_⟩, ?_⟩
    · rw [hs1]; simp only [true_iff]; exact hfront
    · rw [hs1]; intro _; exact ⟨hfront, le_refl _⟩
    · rw [hs1]; intro hf; simp at hf
    · rw [hs1]; intro f hf
      exact haged f (hperm.subset (List.mem_cons_of_mem _ hf))

theorem runwayInv_calls {sort : Sorter} (hs : SortContract sort) (cs : List Call) :
    ∀ s : ATCScheduler, (RunwayInv s ∧ ∀ f ∈ s.waitingQueue, 1 ≤ f.burstTime) →
      (∀ f ∈ addedFlights cs, 1 ≤ f.burstTime) →
      ∃ s1, s.calls sort cs = some s1 ∧
        (RunwayInv s1 ∧ ∀ f ∈ s1.waitingQueue, 1 ≤ f.burstTime) := by
  induction cs with
  | nil => intro s h _; exact ⟨s, rfl, h⟩
  | cons c cs ih =>
    intro s h hadd
    cases c with
    | addFlight flight =>
      have hf : 1 ≤ flight.burstTime := hadd flight (by simp [addedFlights])
      have hrest : ∀ f ∈ addedFlights cs, 1 ≤ f.burstTime := fun f hfm =>
        hadd f (by simp [addedFlights, hfm])
      obtain ⟨s2, hs2, hinv⟩ := ih _ (runwayInv_addFlight s flight h hf) hrest
      exact ⟨s2, by simpa [ATCScheduler.calls, ATCScheduler.call] using hs2, hinv⟩
    | runCycle =>
      have hrest : ∀ f ∈ addedFlights cs, 1 ≤ f.burstTime := fun f hfm =>
        hadd f (by simpa [addedFlights] using hfm)
      obtain ⟨s1, out, hrun, hinv1⟩ := runwayInv_runCycle hs s h
      obtain ⟨s2, hs2, hinv⟩ := ih s1 hinv1 hrest
      exact ⟨s2, by simpa [ATCScheduler.calls, ATCScheduler.call, hrun] using hs2, hinv⟩

/-- C6. After any sequence of `addFlight` and `runCycle` calls on a fresh scheduler in
which every added flight has `burstTime >= 1`, the calls all return and the runway is
busy exactly when `runwayTimeLeft >= 1`; a busy runway has
`1 <= runwayTimeLeft <= burstTime` of its flight and a free runway has
`runwayTimeLeft = 0`. -/
theorem C6_runway_invariant (sort : Sorter) (hs : SortContract sort) (cs : List Call)
    (hburst : ∀ f ∈ addedFlights cs, 1 ≤ f.burstTime) :
    ∃ s, ATCScheduler.init.calls sort cs = some s ∧
      (s.isRunwayBusy = true ↔ 1 ≤ s.runwayTimeLeft) ∧
      (s.isRunwayBusy = true →
        1 ≤ s.runwayTimeLeft ∧ s.runwayTimeLeft ≤ s.currentFlightOnRunway.burstTime) ∧
      (s.isRunwayBusy = false → s.runwayTimeLeft = 0) := by
  have h0 : RunwayInv ATCScheduler.init ∧
      ∀ f ∈ ATCScheduler.init.waitingQueue, 1 ≤ f.burstTime := by
    refine ⟨⟨?_, ?_, ?_⟩, ?_⟩ <;> simp [ATCScheduler.init]
  obtain ⟨s, hs1, hinv, -⟩ := runwayInv_calls hs cs ATCScheduler.init h0 hburst
  exact ⟨s, hs1, hinv⟩

/-- C6 on the calls of `main` up to its sixth cycle. -/
theorem C6_runway_invariant_witness :
    SortContract insertionSort ∧ (∀ f ∈ addedFlights mainCalls, 1 ≤ f.burstTime) ∧
    ∃ s, ATCScheduler.init.calls insertionSort mainCalls = some s ∧
      (s.isRunwayBusy = true ↔ 1 ≤ s.runwayTimeLeft) ∧
      (s.isRunwayBusy = true →
        1 ≤ s.runwayTimeLeft ∧ s.runwayTimeLeft ≤ s.currentFlightOnRunway.burstTime) ∧
      (s.isRunwayBusy = false → s.runwayTimeLeft = 0) :=
  ⟨insertionSort_contract, by decide,
    C6_runway_invariant insertionSort insertionSort_contract mainCalls (by decide)⟩

/-! ## C7: conservation -/

/-- C7. A cycle neither loses, duplicates nor invents a flight.  When it prints
"Scheduling", the ids that waited before are, as a multiset, the id of the flight now on
the runway together with the ids still waiting, and that flight with the flights still
waiting is exactly the aged queue.  When it does not, the waiting ids are unchanged and
so is the flight recorded for the runway.  `addFlight` appends the given flight and
touches nothing else. -/
theorem C7_conservation (sort : Sorter) (hs : SortContract sort) (s : ATCScheduler) :
    (∃ s1 out, s.runCycle sort = some (s1, out) ∧
      (out.any Output.isScheduled = true →
        (↑(s.waitingQueue.map Flight.id) : Multiset String) =
          s1.currentFlightOnRunway.id ::ₘ ↑(s1.waitingQueue.map Flight.id) ∧
        (s1.currentFlightOnRunway :: s1.waitingQueue).Perm (s.waitingQueue.map ageFlight)) ∧
      (out.any Output.isScheduled = false →
        (↑(s1.waitingQueue.map Flight.id) : Multiset String) =
          ↑(s.waitingQueue.map Flight.id) ∧
        s1.currentFlightOnRunway = s.currentFlightOnRunway)) ∧
    ∀ flight : Flight,
      (s.addFlight flight).1 = { s with waitingQueue := s.waitingQueue ++ [flight] } := by
  refine ⟨?_, fun _ => rfl⟩
  obtain ⟨s1, out, hrun, -, h | h⟩ := runCycle_cases hs s
  · refine ⟨s1, out, hrun, ?_, ?_⟩
    · intro hsch; rw [h.1] at hsch; exact absurd hsch (by decide)
    · intro _
      refine ⟨?_, h.2.2.2⟩
      rw [h.2.2.1, map_id_ageFlight]
  · refine ⟨s1, out, hrun, ?_, ?_⟩
    · intro _
      have hperm := hs.perm (s.waitingQueue.map ageFlight)
      rw [h.2.2.1] at hperm
      refine ⟨?_, hperm⟩
      have hids := hperm.map Flight.id
      rw [map_id_ageFlight, List.map_cons] at hids
      rw [Multiset.cons_coe]
      exact (Multiset.coe_eq_coe.2 hids).symm
    · intro hsch; rw [h.1] at hsch; exact absurd hsch (by decide)

/-- C7 at the start of `main`, where the first cycle prints "Scheduling". -/
theorem C7_conservation_witness :
    SortContract insertionSort ∧
    (mainStart.runCycle insertionSort).map (fun r => r.2.any Output.isScheduled) = some true ∧
    ((∃ s1 out, mainStart.runCycle insertionSort = some (s1, out) ∧
      (out.any Output.isScheduled = true →
        (↑(mainStart.waitingQueue.map Flight.id) : Multiset String) =
          s1.currentFlightOnRunway.id ::ₘ ↑(s1.waitingQueue.map Flight.id) ∧
        (s1.currentFlightOnRunway :: s1.waitingQueue).Perm
          (mainStart.waitingQueue.map ageFlight)) ∧
      (out.any Output.isScheduled = false →
        (↑(s1.waitingQueue.map Flight.id) : Multiset String) =
          ↑(mainStart.waitingQueue.map Flight.id) ∧
        s1.currentFlightOnRunway = mainStart.currentFlightOnRunway)) ∧
    ∀ flight : Flight,
      (mainStart.addFlight flight).1 =
        { mainStart with waitingQueue := mainStart.waitingQueue ++ [flight] }) :=
  ⟨insertionSort_contract, by decide, C7_conservation insertionSort insertionSort_contract mainStart⟩

/-! ## C8: exclusivity -/

theorem liveIds_addFlight (s : ATCScheduler) (flight : Flight) :
    (s.addFlight flight).1.liveIds = s.liveIds ++ [flight.id] := by
  simp [ATCScheduler.liveIds, ATCScheduler.addFlight]

/-- A cycle brings no new id: the ids held after it are, up to order, among the ids
held before it. -/
theorem liveIds_runCycle {sort : Sorter} (hs : SortContract sort) (s : ATCScheduler) :
    ∃ s1 out, s.runCycle sort = some (s1, out) ∧ s1.liveIds.Subperm s.liveIds := by
  rcases runCycle_split s with hc | hc | hc
  · obtain ⟨s1, hs1, hrun⟩ := runCycle_busy sort s hc.1 hc.2
    refine ⟨s1, _, hrun, ?_⟩
    rw [hs1]
    simp only [ATCScheduler.liveIds, hc.1, if_true, map_id_ageFlight]
    exact List.Subperm.refl _
  · obtain ⟨s1, hs1, hrun⟩ := runCycle_empty sort s hc
    refine ⟨s1, _, hrun, ?_⟩
    rw [hs1]
    simp only [ATCScheduler.liveIds, hc, List.map_nil, List.append_nil]
    cases hb : s.isRunwayBusy
    · simp
    · by_cases h2 : 0 < s.runwayTimeLeft - 1
      · simp [h2]
      · simp [h2]
  · obtain ⟨front, rest, s1, hsort, hs1, hrun⟩ := runCycle_dispatch hs s hc.1 hc.2
    have hperm : (front :: rest).Perm (s.waitingQueue.map ageFlight) := by
      rw [← hsort]; exact hs.perm _
    have hids := hperm.map Flight.id
    rw [map_id_ageFlight, List.map_cons] at hids
    refine ⟨s1, _, hrun, ?_⟩
    rw [hs1]
    simp only [ATCScheduler.liveIds, if_true, List.singleton_append]
    exact hids.subperm.trans (List.sublist_append_right _ _).subperm

theorem exclusive_calls {sort : Sorter} (hs : SortContract sort) (cs : List Call) :
    ∀ s : ATCScheduler, (s.liveIds ++ (addedFlights cs).map Flight.id).Nodup →
      ∃ s1, s.calls sort cs = some s1 ∧ s1.liveIds.Nodup := by
  induction cs with
  | nil =>
    intro s h
    exact ⟨s, rfl, by simpa [addedFlights] using h⟩
  | cons c cs ih =>
    intro s h
    cases c with
    | addFlight flight =>
      have h2 : ((s.addFlight flight).1.liveIds ++ (addedFlights cs).map Flight.id).Nodup := by
        rw [liveIds_addFlight]
        simpa [addedFlights] using h
      obtain ⟨s2, hs2, hnd⟩ := ih _ h2
      exact ⟨s2, by simpa [ATCScheduler.calls, ATCScheduler.call] using hs2, hnd⟩
    | runCycle =>
      obtain ⟨s1, out, hrun, hsub⟩ := liveIds_runCycle hs s
      have h2 : (s1.liveIds ++ (addedFlights cs).map Flight.id).Nodup := by
        have h3 : (s1.liveIds ++ (addedFlights cs).map Flight.id).Subperm
            (s.liveIds ++ (addedFlights cs).map Flight.id) :=
          (List.subperm_append_right _).2 hsub
        obtain ⟨l, hl, hsl⟩ := h3
        exact hl.nodup_iff.1 ((by simpa [addedFlights] using h : List.Nodup _).sublist hsl)
      obtain ⟨s2, hs2, hnd⟩ := ih s1 h2
      exact ⟨s2, by simpa [ATCScheduler.calls, ATCScheduler.call, hrun] using hs2, hnd⟩

/-- C8. After any sequence of `addFlight` and `runCycle` calls on a fresh scheduler in
which the added flights carry pairwise different ids (each id is new when it is added),
the calls all return, the ids in the waiting queue are pairwise distinct, and when the
runway is busy the id of its flight does not occur in the waiting queue. -/
theorem C8_exclusivity (sort : Sorter) (hs : SortContract sort) (cs : List Call)
    (hfresh : ((addedFlights cs).map Flight.id).Nodup) :
    ∃ s, ATCScheduler.init.calls sort cs = some s ∧
      (s.isRunwayBusy = true →
        s.currentFlightOnRunway.id ∉ s.waitingQueue.map Flight.id) ∧
      (s.waitingQueue.map Flight.id).Nodup := by
  have h0 : (ATCScheduler.init.liveIds ++ (addedFlights cs).map Flight.id).Nodup := by
    simpa [ATCScheduler.liveIds, ATCScheduler.init] using hfresh
  obtain ⟨s, hs1, hnd⟩ := exclusive_calls hs cs ATCScheduler.init h0
  refine ⟨s, hs1, ?_, ?_⟩
  · intro hb
    simp only [ATCScheduler.liveIds, hb, if_true, List.singleton_append,
      List.nodup_cons] at hnd
    exact hnd.1
  · exact (List.nodup_append.1 hnd).2.1

/-- C8 on the calls of `main` up to its sixth cycle: the six ids differ. -/
theorem C8_exclusivity_witness :
    SortContract insertionSort ∧ ((addedFlights mainCalls).map Flight.id).Nodup ∧
    ∃ s, ATCScheduler.init.calls insertionSort mainCalls = some s ∧
      (s.isRunwayBusy = true →
        s.currentFlightOnRunway.id ∉ s.waitingQueue.map Flight.id) ∧
      (s.waitingQueue.map Flight.id).Nodup :=
  ⟨insertionSort_contract, by decide,
    C8_exclusivity insertionSort insertionSort_contract mainCalls (by decide)⟩

/-! ## C9: admission is not validated -/

/-- C9 fails as stated.  A flight with `burstTime` 0 handed to `addFlight` on a fresh
scheduler is not rejected: the state changes, the flight waits in the queue as it was
given, and the message printed is the usual one. -/
theorem C9_counterexample :
    zeroBurst.burstTime ≤ 0 ∧
    (ATCScheduler.init.addFlight zeroBurst).1 ≠ ATCScheduler.init ∧
    (ATCScheduler.init.addFlight zeroBurst).1.waitingQueue = [zeroBurst] ∧
    (ATCScheduler.init.addFlight zeroBurst).2 = [Output.entered 0 "ZB000" "Cargo"] := by
  decide

/-- C9 as amended.  `addFlight` checks nothing: a flight whose `burstTime` is not
positive is admitted like any other.  It is appended to the waiting queue as given (no
field clamped or defaulted), the message "has entered the system" is printed, and the
rest of the queue, the runway and the cycle counter stay as they were. -/
theorem C9_addFlight_admits_unchecked (s : ATCScheduler) (flight : Flight)
    (_hburst : flight.burstTime ≤ 0) :
    (s.addFlight flight).1.waitingQueue = s.waitingQueue ++ [flight] ∧
    (s.addFlight flight).1.isRunwayBusy = s.isRunwayBusy ∧
    (s.addFlight flight).1.currentFlightOnRunway = s.currentFlightOnRunway ∧
    (s.addFlight flight).1.runwayTimeLeft = s.runwayTimeLeft ∧
    (s.addFlight flight).1.simulationCycle = s.simulationCycle ∧
    (s.addFlight flight).2 =
      [Output.entered s.simulationCycle flight.id (flightTypeToString flight.type)] :=
  ⟨rfl, rfl, rfl, rfl, rfl, rfl⟩

/-- The amended C9 at the start of `main` with the flight of `burstTime` 0. -/
theorem C9_addFlight_admits_unchecked_witness :
    zeroBurst.burstTime ≤ 0 ∧
    (mainStart.addFlight zeroBurst).1.waitingQueue = mainStart.waitingQueue ++ [zeroBurst] ∧
    (mainStart.addFlight zeroBurst).1.isRunwayBusy = mainStart.isRunwayBusy ∧
    (mainStart.addFlight zeroBurst).1.currentFlightOnRunway =
      mainStart.currentFlightOnRunway ∧
    (mainStart.addFlight zeroBurst).1.runwayTimeLeft = mainStart.runwayTimeLeft ∧
    (mainStart.addFlight zeroBurst).1.simulationCycle = mainStart.simulationCycle ∧
    (mainStart.addFlight zeroBurst).2 =
      [Output.entered mainStart.simulationCycle zeroBurst.id
        (flightTypeToString zeroBurst.type)] :=
  ⟨by decide, C9_addFlight_admits_unchecked mainStart zeroBurst (by decide)⟩

/-! ## C10: insertion -/

/-- C10 fails as stated.  The Domestic flight DL456 of `main`, added to a fresh
scheduler, waits with priority 0, not with `basePriority DOMESTIC + 0 * 10 = 200`. -/
theorem C10_counterexample :
    (ATCScheduler.init.addFlight domesticFlight).1.waitingQueue = [domesticFlight] ∧
    domesticFlight.type = FlightType.DOMESTIC ∧
    domesticFlight.priority = 0 ∧
    basePriority domesticFlight.type + 0 * 10 = 200 ∧
    domesticFlight.priority ≠ basePriority domesticFlight.type + 0 * 10 := by
  decide

/-- C10 as amended.  For every state and every flight built by the constructor,
`addFlight` appends the flight at the end of the waiting queue with `waitingTime = 0`
and `priority = 0`, the values the constructor sets (`addFlight` does not compute the
priority), and changes neither the flights already queued nor the runway nor the cycle
counter. -/
theorem C10_addFlight_appends (s : ATCScheduler) (id : String) (type : FlightType)
    (arrivalTime burstTime : Int) :
    (s.addFlight (Flight.create id type arrivalTime burstTime)).1.waitingQueue =
      s.waitingQueue ++
        [{ id := id, type := type, arrivalTime := arrivalTime, burstTime := burstTime,
           waitingTime := 0, priority := 0 }] ∧
    (s.addFlight (Flight.create id type arrivalTime burstTime)).1.isRunwayBusy =
      s.isRunwayBusy ∧
    (s.addFlight (Flight.create id type arrivalTime burstTime)).1.currentFlightOnRunway =
      s.currentFlightOnRunway ∧
    (s.addFlight (Flight.create id type arrivalTime burstTime)).1.runwayTimeLeft =
      s.runwayTimeLeft ∧
    (s.addFlight (Flight.create id type arrivalTime burstTime)).1.simulationCycle =
      s.simulationCycle :=
  ⟨rfl, rfl, rfl, rfl, rfl⟩

/-! ## What a cycle prints -/

/-- The status block is neither a "cleared" nor a "Scheduling" message. -/
theorem printStatus_no_event (sort : Sorter) (s : ATCScheduler) :
    (s.printStatus sort).2.any Output.isCleared = false ∧
    (s.printStatus sort).2.any Output.isScheduled = false := by
  simp [ATCScheduler.printStatus, Output.isCleared, Output.isScheduled]

/-- The facts of `runCycle_cases` for a cycle whose result is at hand. -/
theorem runCycle_cases_of_eq {sort : Sorter} (hs : SortContract sort)
    {s s1 : ATCScheduler} {out : List Output} (hrun : s.runCycle sort = some (s1, out)) :
    s1.simulationCycle = s.simulationCycle + 1 ∧
      ((out.any Output.isScheduled = false ∧
        ¬ ((s.isRunwayBusy = false ∨ s.runwayTimeLeft - 1 ≤ 0) ∧ s.waitingQueue ≠ []) ∧
        s1.waitingQueue = s.waitingQueue.map ageFlight ∧
        s1.currentFlightOnRunway = s.currentFlightOnRunway) ∨
       (out.any Output.isScheduled = true ∧
        ((s.isRunwayBusy = false ∨ s.runwayTimeLeft - 1 ≤ 0) ∧ s.waitingQueue ≠ []) ∧
        sort priorityGreater (s.waitingQueue.map ageFlight) =
          s1.currentFlightOnRunway :: s1.waitingQueue ∧
        s1.isRunwayBusy = true ∧
        s1.runwayTimeLeft = s1.currentFlightOnRunway.burstTime)) := by
  obtain ⟨s2, out2, hrun2, h⟩ := runCycle_cases hs s
  rw [hrun] at hrun2
  simp only [Option.some.injEq, Prod.mk.injEq] at hrun2
  obtain ⟨rfl, rfl⟩ := hrun2
  exact h

/-- A cycle prints "cleared" exactly when it finds the runway busy in its last cycle, and
then for the flight on the runway and with the number of this cycle. -/
theorem runCycle_cleared {sort : Sorter} (hs : SortContract sort) (s : ATCScheduler) :
    ∃ s1 out, s.runCycle sort = some (s1, out) ∧
      (s.isRunwayBusy = true ∧ s.runwayTimeLeft - 1 ≤ 0 →
        out.any Output.isCleared = true ∧
        Output.cleared (s.simulationCycle + 1) s.currentFlightOnRunway.id ∈ out) ∧
      (¬ (s.isRunwayBusy = true ∧ s.runwayTimeLeft - 1 ≤ 0) →
        out.any Output.isCleared = false) := by
  rcases runCycle_split s with h | h | h
  · obtain ⟨s1, -, hrun⟩ := runCycle_busy sort s h.1 h.2
    refine ⟨s1, _, hrun, ?_, fun _ => (printStatus_no_event sort s1).1⟩
    rintro ⟨-, h2⟩
    omega
  · obtain ⟨s1, -, hrun⟩ := runCycle_empty sort s h
    refine ⟨s1, _, hrun, ?_, ?_⟩
    · intro h2
      simp [h2, Output.isCleared]
    · intro h2
      rw [if_neg h2, List.nil_append]
      exact (printStatus_no_event sort s1).1
  · obtain ⟨front, rest, s1, -, -, hrun⟩ := runCycle_dispatch hs s h.1 h.2
    refine ⟨s1, _, hrun, ?_, ?_⟩
    · intro h2
      simp [h2.1, Output.isCleared]
    · intro h2
      have hb : s.isRunwayBusy = false := by
        rcases h.1 with hb | hb
        · exact hb
        · cases hbb : s.isRunwayBusy
          · rfl
          · exact absurd ⟨hbb, hb⟩ h2
      simp [hb, Output.isCleared, (printStatus_no_event sort s1).1]

/-! ## C11: the service duration -/

/-- While fewer cycles have run than the runway has left, the runway stays busy with its
flight, whatever flights are added on the way. -/
theorem busy_calls (sort : Sorter) (cs : List Call) :
    ∀ s : ATCScheduler, s.isRunwayBusy = true → (cycleCount cs : Int) < s.runwayTimeLeft →
      ∃ t, s.calls sort cs = some t ∧
        t.isRunwayBusy = true ∧
        t.currentFlightOnRunway = s.currentFlightOnRunway ∧
        t.runwayTimeLeft = s.runwayTimeLeft - cycleCount cs ∧
        t.simulationCycle = s.simulationCycle + cycleCount cs := by
  induction cs with
  | nil =>
    intro s hb _
    exact ⟨s, rfl, hb, rfl, by simp [cycleCount], by simp [cycleCount]⟩
  | cons c cs ih =>
    intro s hb hk
    cases c with
    | addFlight flight =>
      obtain ⟨t, ht, h1, h2, h3, h4⟩ := ih (s.addFlight flight).1 hb
        (by simpa [cycleCount] using hk)
      exact ⟨t, by simpa [ATCScheduler.calls, ATCScheduler.call] using ht, h1, h2,
        by simpa [cycleCount] using h3, by simpa [cycleCount] using h4⟩
    | runCycle =>
      have hk2 : (cycleCount cs : Int) + 1 < s.runwayTimeLeft := by
        simpa [cycleCount] using hk
      obtain ⟨s1, hs1, hrun⟩ := runCycle_busy sort s hb (by omega)
      obtain ⟨t, ht, h1, h2, h3, h4⟩ := ih s1 (by rw [hs1]) (by rw [hs1]; simp only; omega)
      refine ⟨t, by simpa [ATCScheduler.calls, ATCScheduler.call, hrun] using ht, h1, ?_, ?_, ?_⟩
      · rw [h2, hs1]
      · rw [h3, hs1]; simp only [cycleCount]; push_cast; ring
      · rw [h4, hs1]; simp only [cycleCount]; push_cast; ring

/-- C11. Let a cycle dispatch a flight (it prints "Scheduling"; the cycle counter then
reads `c` and the flight has `burstTime = b`), and let any calls follow, `addFlight`
calls included, with fewer than `b` cycles among them.  Then the calls return, the
runway is still busy with the same flight, with `b` less the cycles run left, and the
counter reads `c` plus the cycles run.  The next cycle prints no "cleared" message and
keeps the flight on the runway when it is not yet the `b`-th, and prints "cleared" for
this flight with the cycle number `c + b` when it is the `b`-th. -/
theorem C11_service_duration (sort : Sorter) (hs : SortContract sort)
    (s0 s : ATCScheduler) (out : List Output)
    (hrun : s0.runCycle sort = some (s, out))
    (hdisp : out.any Output.isScheduled = true)
    (cs : List Call)
    (hk : (cycleCount cs : Int) < s.currentFlightOnRunway.burstTime) :
    ∃ t, s.calls sort cs = some t ∧
      t.isRunwayBusy = true ∧
      t.currentFlightOnRunway = s.currentFlightOnRunway ∧
      t.runwayTimeLeft = s.currentFlightOnRunway.burstTime - cycleCount cs ∧
      t.simulationCycle = s.simulationCycle + cycleCount cs ∧
      ∃ t1 out1, t.runCycle sort = some (t1, out1) ∧
        ((cycleCount cs : Int) + 1 < s.currentFlightOnRunway.burstTime →
          out1.any Output.isCleared = false ∧ t1.isRunwayBusy = true ∧
          t1.currentFlightOnRunway = s.currentFlightOnRunway) ∧
        ((cycleCount cs : Int) + 1 = s.currentFlightOnRunway.burstTime →
          out1.any Output.isCleared = true ∧
          Output.cleared (s.simulationCycle + s.currentFlightOnRunway.burstTime)
            s.currentFlightOnRunway.id ∈ out1) := by
  obtain ⟨-, h | h⟩ := runCycle_cases_of_eq hs hrun
  · rw [h.1] at hdisp; exact absurd hdisp (by decide)
  · obtain ⟨-, -, -, hbusy, hleft⟩ := h
    obtain ⟨t, ht, h1, h2, h3, h4⟩ := busy_calls sort cs s hbusy (by rw [hleft]; exact hk)
    rw [hleft] at h3
    refine ⟨t, ht, h1, h2, h3, h4, ?_⟩
    by_cases hlast : (cycleCount cs : Int) + 1 < s.currentFlightOnRunway.burstTime
    · obtain ⟨t1, ht1, hrun1⟩ := runCycle_busy sort t h1 (by rw [h3]; omega)
      refine ⟨t1, _, hrun1, fun _ => ⟨(printStatus_no_event sort t1).1, by rw [ht1],
        by rw [ht1]; exact h2⟩, ?_⟩
      intro heq; omega
    · obtain ⟨t1, out1, hrun1, hyes, -⟩ := runCycle_cleared hs t
      refine ⟨t1, out1, hrun1, fun hlt => absurd hlt hlast, ?_⟩
      intro heq
      have hc := hyes ⟨h1, by rw [h3]; omega⟩
      refine ⟨hc.1, ?_⟩
      have hcyc : t.simulationCycle + 1 =
          s.simulationCycle + s.currentFlightOnRunway.burstTime := by rw [h4]; omega
      rw [← hcyc, ← h2]
      exact hc.2

/-- C11 on `main`: its first cycle dispatches BA288 (`burstTime` 6) in cycle 1; after the
next five cycles, with two flights added on the way, BA288 still holds the runway, and
the cycle after them is the sixth, which prints "cleared" for BA288 in cycle 7. -/
theorem C11_service_duration_witness :
    SortContract insertionSort ∧
    mainStart.runCycle insertionSort = some (mainFirstCycle.1, mainFirstCycle.2) ∧
    mainFirstCycle.2.any Output.isScheduled = true ∧
    (cycleCount mainSecondToSixth : Int) < mainFirstCycle.1.currentFlightOnRunway.burstTime ∧
    (cycleCount mainSecondToSixth : Int) + 1 =
      mainFirstCycle.1.currentFlightOnRunway.burstTime ∧
    ∃ t, mainFirstCycle.1.calls insertionSort mainSecondToSixth = some t ∧
      t.isRunwayBusy = true ∧
      t.currentFlightOnRunway = mainFirstCycle.1.currentFlightOnRunway ∧
      t.runwayTimeLeft =
        mainFirstCycle.1.currentFlightOnRunway.burstTime - cycleCount mainSecondToSixth ∧
      t.simulationCycle = mainFirstCycle.1.simulationCycle + cycleCount mainSecondToSixth ∧
      ∃ t1 out1, t.runCycle insertionSort = some (t1, out1) ∧
        ((cycleCount mainSecondToSixth : Int) + 1 <
            mainFirstCycle.1.currentFlightOnRunway.burstTime →
          out1.any Output.isCleared = false ∧ t1.isRunwayBusy = true ∧
          t1.currentFlightOnRunway = mainFirstCycle.1.currentFlightOnRunway) ∧
        ((cycleCount mainSecondToSixth : Int) + 1 =
            mainFirstCycle.1.currentFlightOnRunway.burstTime →
          out1.any Output.isCleared = true ∧
          Output.cleared
            (mainFirstCycle.1.simulationCycle +
              mainFirstCycle.1.currentFlightOnRunway.burstTime)
            mainFirstCycle.1.currentFlightOnRunway.id ∈ out1) :=
  ⟨insertionSort_contract, by decide, by decide, by decide, by decide,
    C11_service_duration insertionSort insertionSort_contract mainStart mainFirstCycle.1
      mainFirstCycle.2 (by decide) (by decide) mainSecondToSixth (by decide)⟩

/-! ## C12: aging raises the priority -/

/-- An invariant that `addFlight` keeps for the flights allowed and that every cycle
keeps holds after any sequence of calls, and the calls all return. -/
theorem calls_invariant {sort : Sorter} (hs : SortContract sort)
    (P : ATCScheduler → Prop) (ok : Flight → Prop)
    (hadd : ∀ s flight, P s → ok flight → P (s.addFlight flight).1)
    (hcyc : ∀ s s1 out, P s → s.runCycle sort = some (s1, out) → P s1)
    (cs : List Call) :
    ∀ s : ATCScheduler, P s → (∀ f ∈ addedFlights cs, ok f) →
      ∃ t, s.calls sort cs = some t ∧ P t := by
  induction cs with
  | nil => intro s h _; exact ⟨s, rfl, h⟩
  | cons c cs ih =>
    intro s h hok
    cases c with
    | addFlight flight =>
      have hf : ok flight := hok flight (by simp [addedFlights])
      have hrest : ∀ f ∈ addedFlights cs, ok f := fun f hfm =>
        hok f (by simp [addedFlights, hfm])
      obtain ⟨t, ht, hP⟩ := ih _ (hadd s flight h hf) hrest
      exact ⟨t, by simpa [ATCScheduler.calls, ATCScheduler.call] using ht, hP⟩
    | runCycle =>
      have hrest : ∀ f ∈ addedFlights cs, ok f := fun f hfm =>
        hok f (by simpa [addedFlights] using hfm)
      obtain ⟨s1, out, hrun, -⟩ := runCycle_cases hs s
      obtain ⟨t, ht, hP⟩ := ih s1 (hcyc s s1 out h hrun) hrest
      exact ⟨t, by simpa [ATCScheduler.calls, ATCScheduler.call, hrun] using ht, hP⟩

/-- The flights waiting after a cycle are, up to order, among the aged flights of the
queue the cycle began with. -/
theorem runCycle_queue_subperm {sort : Sorter} (hs : SortContract sort)
    {s s1 : ATCScheduler} {out : List Output} (hrun : s.runCycle sort = some (s1, out)) :
    s1.waitingQueue.Subperm (s.waitingQueue.map ageFlight) := by
  obtain ⟨-, h | h⟩ := runCycle_cases_of_eq hs hrun
  · rw [h.2.2.1]
  · have hperm := hs.perm (s.waitingQueue.map ageFlight)
    rw [h.2.2.1] at hperm
    exact (List.sublist_cons_self _ _).subperm.trans hperm.subperm

/-- In the states reached with flights built by the constructor, a waiting flight has a
`waitingTime` of at least 0 and either still the priority 0 of the constructor or the
priority computed from its `waitingTime`. -/
theorem queue_priorities_calls {sort : Sorter} (hs : SortContract sort) (cs : List Call)
    (hctor : ∀ f ∈ addedFlights cs, f = Flight.create f.id f.type f.arrivalTime f.burstTime) :
    ∃ s, ATCScheduler.init.calls sort cs = some s ∧
      ∀ f ∈ s.waitingQueue, 0 ≤ f.waitingTime ∧
        (f.priority = 0 ∨ f.priority = basePriority f.type + f.waitingTime * 10) := by
  refine calls_invariant hs
    (fun s => ∀ f ∈ s.waitingQueue, 0 ≤ f.waitingTime ∧
      (f.priority = 0 ∨ f.priority = basePriority f.type + f.waitingTime * 10))
    (fun f => f = Flight.create f.id f.type f.arrivalTime f.burstTime)
    ?_ ?_ cs ATCScheduler.init ?_ hctor
  · intro s flight h hf f hfm
    rcases List.mem_append.1 hfm with hfm | hfm
    · exact h f hfm
    · rw [List.mem_singleton.1 hfm, hf]
      exact ⟨le_refl _, Or.inl rfl⟩
  · intro s s1 out h hrun g hg
    obtain ⟨f, hf, rfl⟩ := mem_map_ageFlight ((runCycle_queue_subperm hs hrun).subset hg)
    exact ⟨by have := (h f hf).1; simp only; omega, Or.inr rfl⟩
  · intro f hf
    simp [ATCScheduler.init] at hf

/-- C12. After any sequence of `addFlight` calls with flights built by the constructor
and `runCycle` calls on a fresh scheduler, the calls return and so does one more cycle;
the flights waiting after that cycle are, each once, aged flights of the queue it began
with, and every flight of that queue gets by the aging of the cycle a priority strictly
greater than the one it had. -/
theorem C12_aging_monotone (sort : Sorter) (hs : SortContract sort) (cs : List Call)
    (hctor : ∀ f ∈ addedFlights cs, f = Flight.create f.id f.type f.arrivalTime f.burstTime) :
    ∃ s, ATCScheduler.init.calls sort cs = some s ∧
      ∃ s1 out, s.runCycle sort = some (s1, out) ∧
        s1.waitingQueue.Subperm (s.waitingQueue.map ageFlight) ∧
        (∀ f ∈ s.waitingQueue, f.priority < (ageFlight f).priority) ∧
        ∀ g ∈ s1.waitingQueue, ∃ f ∈ s.waitingQueue,
          g.id = f.id ∧ g.type = f.type ∧ g.arrivalTime = f.arrivalTime ∧
          g.burstTime = f.burstTime ∧ g.waitingTime = f.waitingTime + 1 ∧
          f.priority < g.priority := by
  obtain ⟨s, hcalls, hinv⟩ := queue_priorities_calls hs cs hctor
  obtain ⟨s1, out, hrun, -⟩ := runCycle_cases hs s
  have hsub := runCycle_queue_subperm hs hrun
  have hlt : ∀ f ∈ s.waitingQueue, f.priority < (ageFlight f).priority := by
    intro f hf
    obtain ⟨hw, hp | hp⟩ := hinv f hf
    · have hb : 100 ≤ basePriority f.type := by cases f.type <;> simp [basePriority]
      simp only [ageFlight, calculatePriority, hp]
      omega
    · simp only [ageFlight, calculatePriority, hp]
      omega
  refine ⟨s, hcalls, s1, out, hrun, hsub, hlt, ?_⟩
  intro g hg
  obtain ⟨f, hf, hgf⟩ := List.mem_map.1 (hsub.subset hg)
  subst hgf
  exact ⟨f, hf, rfl, rfl, rfl, rfl, rfl, hlt f hf⟩

/-- C12 on the calls of `main` up to its sixth cycle; five flights wait before the
seventh. -/
theorem C12_aging_monotone_witness :
    SortContract insertionSort ∧
    (∀ f ∈ addedFlights mainCalls,
      f = Flight.create f.id f.type f.arrivalTime f.burstTime) ∧
    ∃ s, ATCScheduler.init.calls insertionSort mainCalls = some s ∧
      ∃ s1 out, s.runCycle insertionSort = some (s1, out) ∧
        s1.waitingQueue.Subperm (s.waitingQueue.map ageFlight) ∧
        (∀ f ∈ s.waitingQueue, f.priority < (ageFlight f).priority) ∧
        ∀ g ∈ s1.waitingQueue, ∃ f ∈ s.waitingQueue,
          g.id = f.id ∧ g.type = f.type ∧ g.arrivalTime = f.arrivalTime ∧
          g.burstTime = f.burstTime ∧ g.waitingTime = f.waitingTime + 1 ∧
          f.priority < g.priority :=
  ⟨insertionSort_contract, by decide,
    C12_aging_monotone insertionSort insertionSort_contract mainCalls (by decide)⟩

/-! ## C13: the starvation bound -/

/-- C13 fails as stated.  Domestic and Cargo are `G = 100` apart and `ceil(100 / 10)` is
10; a Cargo flight that has waited 10 cycles gets priority 200, which is the base
priority of Domestic and not more. -/
theorem C13_counterexample :
    basePriority FlightType.DOMESTIC - basePriority FlightType.CARGO = 100 ∧
    ceilDiv (basePriority FlightType.DOMESTIC - basePriority FlightType.CARGO) 10 = 10 ∧
    (calculatePriority
      { Flight.create "FX123" FlightType.CARGO 1 5 with waitingTime := 10 }).priority = 200 ∧
    ¬ (basePriority FlightType.DOMESTIC <
      (calculatePriority
        { Flight.create "FX123" FlightType.CARGO 1 5 with waitingTime := 10 }).priority) := by
  decide

/-- C13 as amended.  For two flight types with `basePriority high - basePriority low =
G > 0`, the priority `calculatePriority` gives a flight of the lower type that has
waited `ceil(G / 10)` cycles is equal to `basePriority high`, and one cycle more of
waiting makes it strictly greater. -/
theorem C13_starvation_bound (high low : FlightType) (flight : Flight)
    (hG : 0 < basePriority high - basePriority low) (hlow : flight.type = low) :
    (calculatePriority
      { flight with
        waitingTime := ceilDiv (basePriority high - basePriority low) 10 }).priority =
      basePriority high ∧
    basePriority high <
      (calculatePriority
        { flight with
          waitingTime := ceilDiv (basePriority high - basePriority low) 10 + 1 }).priority := by
  subst hlow
  simp only [calculatePriority]
  cases high <;> cases hty : flight.type <;>
    simp only [basePriority, hty, ceilDiv] at hG ⊢ <;>
    first
      | exact absurd hG (by decide)
      | (constructor <;> decide)

/-- The amended C13 for Cargo under Domestic. -/
theorem C13_starvation_bound_witness :
    0 < basePriority FlightType.DOMESTIC - basePriority FlightType.CARGO ∧
    agedCargo.type = FlightType.CARGO ∧
    ((calculatePriority
      { agedCargo with
        waitingTime :=
          ceilDiv (basePriority FlightType.DOMESTIC - basePriority FlightType.CARGO) 10
      }).priority = basePriority FlightType.DOMESTIC ∧
    basePriority FlightType.DOMESTIC <
      (calculatePriority
        { agedCargo with
          waitingTime :=
            ceilDiv (basePriority FlightType.DOMESTIC - basePriority FlightType.CARGO) 10 + 1
        }).priority) :=
  ⟨by decide, rfl,
    C13_starvation_bound FlightType.DOMESTIC FlightType.CARGO agedCargo (by decide) rfl⟩

/-! ## C14 and C15: two flights of different priority -/

/-- A list that rearranges a pair is the pair or the pair turned round. -/
theorem perm_pair {p x y : Flight} {rest : List Flight} (h : (p :: rest).Perm [x, y]) :
    (p = x ∧ rest = [y]) ∨ (p = y ∧ rest = [x]) := by
  have hmem : p ∈ [x, y] := h.subset (List.mem_cons_self _ _)
  rcases List.mem_cons.1 hmem with rfl | hmem
  · exact Or.inl ⟨rfl, List.perm_singleton.1 ((List.perm_cons _).1 h)⟩
  · have hp : p = y := List.mem_singleton.1 hmem
    subst hp
    exact Or.inr ⟨rfl, List.perm_singleton.1
      ((List.perm_cons _).1 (h.trans (List.Perm.swap _ _ _)))⟩

/-- Every sort that keeps the contract puts the flight of greater priority in front of
the other, in whichever order the two stood. -/
theorem sort_pair {sort : Sorter} (hs : SortContract sort) {x y : Flight}
    (hxy : y.priority < x.priority) {l : List Flight} (hl : l = [x, y] ∨ l = [y, x]) :
    sort priorityGreater l = [x, y] := by
  have hperm : (sort priorityGreater l).Perm [x, y] := by
    rcases hl with rfl | rfl
    · exact hs.perm _
    · exact (hs.perm _).trans (List.Perm.swap _ _ _)
  have hsorted := hs.sorted l
  cases hsl : sort priorityGreater l with
  | nil => rw [hsl] at hperm; exact absurd hperm.symm.eq_nil (by simp)
  | cons p rest =>
    rw [hsl] at hperm hsorted
    rcases perm_pair hperm with ⟨rfl, rfl⟩ | ⟨rfl, rfl⟩
    · rfl
    · rw [List.pairwise_cons] at hsorted
      have h1 := hsorted.1 x (List.mem_singleton.2 rfl)
      simp only [priorityGreater, decide_eq_false_iff_not, gt_iff_lt, not_lt] at h1
      omega

/-- C14. Two flights of different types, built by the constructor, are added to a fresh
scheduler.  The first cycle then returns with `simulationCycle = 1` and the runway busy;
the flight of the type with the greater base priority is on the runway, aged by one
cycle and with its `burstTime` as `runwayTimeLeft`, and the waiting queue holds exactly
the other flight with `waitingTime = 1` and `priority = basePriority type + 10`.  One of
the two types does have the greater base priority. -/
theorem C14_two_flights (sort : Sorter) (hs : SortContract sort)
    (idA : String) (typeA : FlightType) (arrivalA burstA : Int)
    (idB : String) (typeB : FlightType) (arrivalB burstB : Int)
    (hne : typeA ≠ typeB) :
    ∃ s1 out,
      ((ATCScheduler.init.addFlight (Flight.create idA typeA arrivalA burstA)).1.addFlight
        (Flight.create idB typeB arrivalB burstB)).1.runCycle sort = some (s1, out) ∧
      s1.simulationCycle = 1 ∧ s1.isRunwayBusy = true ∧
      (basePriority typeB < basePriority typeA →
        s1.currentFlightOnRunway =
          { Flight.create idA typeA arrivalA burstA with
            waitingTime := 1, priority := basePriority typeA + 10 } ∧
        s1.runwayTimeLeft = burstA ∧
        s1.waitingQueue =
          [{ Flight.create idB typeB arrivalB burstB with
             waitingTime := 1, priority := basePriority typeB + 10 }]) ∧
      (basePriority typeA < basePriority typeB →
        s1.currentFlightOnRunway =
          { Flight.create idB typeB arrivalB burstB with
            waitingTime := 1, priority := basePriority typeB + 10 } ∧
        s1.runwayTimeLeft = burstB ∧
        s1.waitingQueue =
          [{ Flight.create idA typeA arrivalA burstA with
             waitingTime := 1, priority := basePriority typeA + 10 }]) ∧
      (basePriority typeB < basePriority typeA ∨ basePriority typeA < basePriority typeB) := by
  have hbase : basePriority typeB < basePriority typeA ∨
      basePriority typeA < basePriority typeB := by
    cases typeA <;> cases typeB <;> simp [basePriority] at hne ⊢
  obtain ⟨s1, out, hrun, hcyc, h | h⟩ := runCycle_cases hs
    ((ATCScheduler.init.addFlight (Flight.create idA typeA arrivalA burstA)).1.addFlight
      (Flight.create idB typeB arrivalB burstB)).1
  · exact absurd ⟨Or.inl rfl, by simp [ATCScheduler.addFlight]⟩ h.2.1
  · obtain ⟨-, -, hsort, hbusy, hleft⟩ := h
    have hq : (((ATCScheduler.init.addFlight
        (Flight.create idA typeA arrivalA burstA)).1.addFlight
        (Flight.create idB typeB arrivalB burstB)).1.waitingQueue.map ageFlight) =
        [ageFlight (Flight.create idA typeA arrivalA burstA),
         ageFlight (Flight.create idB typeB arrivalB burstB)] := rfl
    refine ⟨s1, out, hrun, by rw [hcyc]; rfl, hbusy, ?_, ?_, hbase⟩
    · intro hlt
      have hp : (ageFlight (Flight.create idB typeB arrivalB burstB)).priority <
          (ageFlight (Flight.create idA typeA arrivalA burstA)).priority := by
        simp only [ageFlight, calculatePriority, Flight.create]; omega
      rw [sort_pair hs hp (Or.inl hq)] at hsort
      simp only [List.cons.injEq] at hsort
      refine ⟨?_, ?_, ?_⟩
      · rw [← hsort.1]; simp [ageFlight, calculatePriority, Flight.create]
      · rw [hleft, ← hsort.1]; rfl
      · rw [← hsort.2]; simp [ageFlight, calculatePriority, Flight.create]
    · intro hlt
      have hp : (ageFlight (Flight.create idA typeA arrivalA burstA)).priority <
          (ageFlight (Flight.create idB typeB arrivalB burstB)).priority := by
        simp only [ageFlight, calculatePriority, Flight.create]; omega
      rw [sort_pair hs hp (Or.inr hq)] at hsort
      simp only [List.cons.injEq] at hsort
      refine ⟨?_, ?_, ?_⟩
      · rw [← hsort.1]; simp [ageFlight, calculatePriority, Flight.create]
      · rw [hleft, ← hsort.1]; rfl
      · rw [← hsort.2]; simp [ageFlight, calculatePriority, Flight.create]

/-- C14 on the scenario of the specification: A (Domestic, arrival 0, burst 4) and
B (International, arrival 0, burst 6) give B on the runway with 6 cycles left and a
queue holding only A with `waitingTime` 1 and priority 210. -/
theorem C14_two_flights_witness :
    SortContract insertionSort ∧ FlightType.DOMESTIC ≠ FlightType.INTERNATIONAL ∧
    basePriority FlightType.DOMESTIC < basePriority FlightType.INTERNATIONAL ∧
    (basePriority FlightType.DOMESTIC + 10 = 210 ∧
     ((ATCScheduler.init.addFlight flightA).1.addFlight flightB).1 =
      { ATCScheduler.init with waitingQueue := [flightA, flightB] }) ∧
    ∃ s1 out,
      ((ATCScheduler.init.addFlight
          (Flight.create "DL456" FlightType.DOMESTIC 0 4)).1.addFlight
        (Flight.create "BA288" FlightType.INTERNATIONAL 0 6)).1.runCycle insertionSort =
        some (s1, out) ∧
      s1.simulationCycle = 1 ∧ s1.isRunwayBusy = true ∧
      (basePriority FlightType.INTERNATIONAL < basePriority FlightType.DOMESTIC →
        s1.currentFlightOnRunway =
          { Flight.create "DL456" FlightType.DOMESTIC 0 4 with
            waitingTime := 1, priority := basePriority FlightType.DOMESTIC + 10 } ∧
        s1.runwayTimeLeft = 4 ∧
        s1.waitingQueue =
          [{ Flight.create "BA288" FlightType.INTERNATIONAL 0 6 with
             waitingTime := 1, priority := basePriority FlightType.INTERNATIONAL + 10 }]) ∧
      (basePriority FlightType.DOMESTIC < basePriority FlightType.INTERNATIONAL →
        s1.currentFlightOnRunway =
          { Flight.create "BA288" FlightType.INTERNATIONAL 0 6 with
            waitingTime := 1, priority := basePriority FlightType.INTERNATIONAL + 10 } ∧
        s1.runwayTimeLeft = 6 ∧
        s1.waitingQueue =
          [{ Flight.create "DL456" FlightType.DOMESTIC 0 4 with
             waitingTime := 1, priority := basePriority FlightType.DOMESTIC + 10 }]) ∧
      (basePriority FlightType.INTERNATIONAL < basePriority FlightType.DOMESTIC ∨
        basePriority FlightType.DOMESTIC < basePriority FlightType.INTERNATIONAL) :=
  ⟨insertionSort_contract, by decide, by decide, ⟨by decide, rfl⟩,
    C14_two_flights insertionSort insertionSort_contract "DL456" FlightType.DOMESTIC 0 4
      "BA288" FlightType.INTERNATIONAL 0 6 (by decide)⟩

/-- C15. The runway is free, or clears in this cycle, and the queue holds, in either
order, a Cargo flight with `waitingTime` 31 and priority 410 and a VIP flight with
`waitingTime` 0.  Then the cycle returns, prints "Scheduling" and puts the Cargo flight
on the runway (aged to `waitingTime` 32, priority 420), and the VIP flight (aged to
`waitingTime` 1, priority 410) is all that waits. -/
theorem C15_aged_cargo_beats_fresh_vip (sort : Sorter) (hs : SortContract sort)
    (s : ATCScheduler) (cargo vip : Flight)
    (hfree : s.isRunwayBusy = false ∨ s.runwayTimeLeft - 1 ≤ 0)
    (hq : s.waitingQueue = [cargo, vip] ∨ s.waitingQueue = [vip, cargo])
    (hcargo : cargo.type = FlightType.CARGO) (hcw : cargo.waitingTime = 31)
    (_hcp : cargo.priority = 410)
    (hvip : vip.type = FlightType.VIP) (hvw : vip.waitingTime = 0) :
    ∃ s1 out, s.runCycle sort = some (s1, out) ∧
      out.any Output.isScheduled = true ∧
      s1.isRunwayBusy = true ∧
      s1.currentFlightOnRunway = { cargo with waitingTime := 32, priority := 420 } ∧
      s1.runwayTimeLeft = cargo.burstTime ∧
      s1.waitingQueue = [{ vip with waitingTime := 1, priority := 410 }] := by
  have hc : ageFlight cargo = { cargo with waitingTime := 32, priority := 420 } := by
    simp [ageFlight, calculatePriority, hcargo, hcw, basePriority]
  have hv : ageFlight vip = { vip with waitingTime := 1, priority := 410 } := by
    simp [ageFlight, calculatePriority, hvip, hvw, basePriority]
  have hp : (ageFlight vip).priority < (ageFlight cargo).priority := by
    rw [hc, hv]; simp
  have hne : s.waitingQueue ≠ [] := by
    rcases hq with h | h <;> simp [h]
  have hqa : s.waitingQueue.map ageFlight = [ageFlight cargo, ageFlight vip] ∨
      s.waitingQueue.map ageFlight = [ageFlight vip, ageFlight cargo] := by
    rcases hq with h | h
    · exact Or.inl (by rw [h]; rfl)
    · exact Or.inr (by rw [h]; rfl)
  obtain ⟨s1, out, hrun, -, h | h⟩ := runCycle_cases hs s
  · exact absurd ⟨hfree, hne⟩ h.2.1
  · obtain ⟨hsch, -, hsort, hbusy, hleft⟩ := h
    rw [sort_pair hs hp hqa] at hsort
    simp only [List.cons.injEq] at hsort
    refine ⟨s1, out, hrun, hsch, hbusy, ?_, ?_, ?_⟩
    · rw [← hsort.1, hc]
    · rw [hleft, ← hsort.1, hc]
    · rw [← hsort.2, hv]

/-- C15 on a state reached by calls: an Emergency flight is in its last cycle on the
runway, the Cargo flight has waited 31 cycles, the VIP flight has just been added. -/
theorem C15_aged_cargo_beats_fresh_vip_witness :
    SortContract insertionSort ∧
    ATCScheduler.init.calls insertionSort cargoVipCalls = some cargoVipState ∧
    (cargoVipState.isRunwayBusy = false ∨ cargoVipState.runwayTimeLeft - 1 ≤ 0) ∧
    (cargoVipState.waitingQueue = [agedCargo, freshVip] ∨
      cargoVipState.waitingQueue = [freshVip, agedCargo]) ∧
    agedCargo.type = FlightType.CARGO ∧ agedCargo.waitingTime = 31 ∧
    agedCargo.priority = 410 ∧
    freshVip.type = FlightType.VIP ∧ freshVip.waitingTime = 0 ∧
    ∃ s1 out, cargoVipState.runCycle insertionSort = some (s1, out) ∧
      out.any Output.isScheduled = true ∧
      s1.isRunwayBusy = true ∧
      s1.currentFlightOnRunway = { agedCargo with waitingTime := 32, priority := 420 } ∧
      s1.runwayTimeLeft = agedCargo.burstTime ∧
      s1.waitingQueue = [{ freshVip with waitingTime := 1, priority := 410 }] :=
  ⟨insertionSort_contract, by decide, Or.inr (by decide), Or.inl rfl, rfl, rfl, rfl, rfl, rfl,
    C15_aged_cargo_beats_fresh_vip insertionSort insertionSort_contract cargoVipState agedCargo freshVip
      (Or.inr (by decide)) (Or.inl rfl) rfl rfl rfl rfl rfl⟩

/-! ## C16: the idle cycle -/

/-- C16. With nobody waiting and the runway free, a cycle returns, adds exactly 1 to
`simulationCycle`, prints neither a "cleared" nor a "Scheduling" message, and leaves the
queue empty, the runway free and `runwayTimeLeft` as it was; this holds for any sort. -/
theorem C16_idle_cycle (sort : Sorter) (s : ATCScheduler)
    (hq : s.waitingQueue = []) (hfree : s.isRunwayBusy = false) :
    ∃ s1 out, s.runCycle sort = some (s1, out) ∧
      s1.simulationCycle = s.simulationCycle + 1 ∧
      out.any Output.isCleared = false ∧
      out.any Output.isScheduled = false ∧
      s1.waitingQueue = [] ∧
      s1.isRunwayBusy = false ∧
      s1.runwayTimeLeft = s.runwayTimeLeft := by
  obtain ⟨s1, hs1, hrun⟩ := runCycle_empty sort s hq
  have hno := printStatus_no_event sort s1
  refine ⟨s1, _, hrun, by rw [hs1], ?_, ?_, by rw [hs1], ?_, ?_⟩
  · simp only [hfree, Bool.false_eq_true, false_and, if_false, List.nil_append]
    exact hno.1
  · simp only [hfree, Bool.false_eq_true, false_and, if_false, List.nil_append]
    exact hno.2
  · rw [hs1]; simp [hfree]
  · rw [hs1]; simp [hfree]

/-- C16 on an idle scheduler in its fourth cycle. -/
theorem C16_idle_cycle_witness :
    idleState.waitingQueue = [] ∧ idleState.isRunwayBusy = false ∧
    ∃ s1 out, idleState.runCycle insertionSort = some (s1, out) ∧
      s1.simulationCycle = idleState.simulationCycle + 1 ∧
      out.any Output.isCleared = false ∧
      out.any Output.isScheduled = false ∧
      s1.waitingQueue = [] ∧
      s1.isRunwayBusy = false ∧
      s1.runwayTimeLeft = idleState.runwayTimeLeft :=
  ⟨rfl, rfl, C16_idle_cycle insertionSort idleState rfl rfl⟩

/-! ## C17: work conservation -/

/-- C17. Whatever the state, the state a cycle produces does not have the runway free
while somebody waits.  And a cycle that finds the runway busy with `runwayTimeLeft = 1`
while somebody waits prints both "cleared", for the flight that held the runway, and
"Scheduling", and leaves the runway busy with a flight of the aged queue. -/
theorem C17_work_conservation (sort : Sorter) (hs : SortContract sort) (s : ATCScheduler) :
    ∃ s1 out, s.runCycle sort = some (s1, out) ∧
      ¬ (s1.isRunwayBusy = false ∧ s1.waitingQueue ≠ []) ∧
      (s.isRunwayBusy = true → s.runwayTimeLeft = 1 → s.waitingQueue ≠ [] →
        out.any Output.isCleared = true ∧
        Output.cleared (s.simulationCycle + 1) s.currentFlightOnRunway.id ∈ out ∧
        out.any Output.isScheduled = true ∧
        s1.isRunwayBusy = true ∧
        s1.currentFlightOnRunway ∈ s.waitingQueue.map ageFlight) := by
  obtain ⟨s1, out, hrun, hyes, -⟩ := runCycle_cleared hs s
  obtain ⟨-, h | h⟩ := runCycle_cases_of_eq hs hrun
  · refine ⟨s1, out, hrun, ?_, ?_⟩
    · rintro ⟨hfree, hq⟩
      rcases runCycle_split s with hc | hc | hc
      · obtain ⟨s2, hs2, hrun2⟩ := runCycle_busy sort s hc.1 hc.2
        rw [hrun] at hrun2
        simp only [Option.some.injEq, Prod.mk.injEq] at hrun2
        rw [hrun2.1, hs2] at hfree
        simp at hfree
      · rw [h.2.2.1, hc] at hq
        exact hq rfl
      · exact h.2.1 hc
    · intro hb ht hq
      exact absurd ⟨Or.inr (by omega), hq⟩ h.2.1
  · refine ⟨s1, out, hrun, ?_, ?_⟩
    · rintro ⟨hfree, -⟩
      rw [h.2.2.2.1] at hfree
      exact absurd hfree (by decide)
    · intro hb ht _
      have hc := hyes ⟨hb, by omega⟩
      refine ⟨hc.1, hc.2, h.1, h.2.2.2.1, ?_⟩
      have hperm := hs.perm (s.waitingQueue.map ageFlight)
      rw [h.2.2.1] at hperm
      exact hperm.subset (List.mem_cons_self _ _)

/-- C17 on `main` after its sixth cycle: BA288 has one cycle left, five flights wait, and
the seventh cycle clears BA288 and dispatches. -/
theorem C17_work_conservation_witness :
    SortContract insertionSort ∧
    mainSixth.isRunwayBusy = true ∧ mainSixth.runwayTimeLeft = 1 ∧
    mainSixth.waitingQueue ≠ [] ∧
    ∃ s1 out, mainSixth.runCycle insertionSort = some (s1, out) ∧
      ¬ (s1.isRunwayBusy = false ∧ s1.waitingQueue ≠ []) ∧
      (mainSixth.isRunwayBusy = true → mainSixth.runwayTimeLeft = 1 →
        mainSixth.waitingQueue ≠ [] →
        out.any Output.isCleared = true ∧
        Output.cleared (mainSixth.simulationCycle + 1)
          mainSixth.currentFlightOnRunway.id ∈ out ∧
        out.any Output.isScheduled = true ∧
        s1.isRunwayBusy = true ∧
        s1.currentFlightOnRunway ∈ mainSixth.waitingQueue.map ageFlight) :=
  ⟨insertionSort_contract, by decide, by decide, by decide,
    C17_work_conservation insertionSort insertionSort_contract mainSixth⟩

/-! ## C18: the simulation drains -/

theorem map_burstTime_ageFlight (l : List Flight) :
    (l.map ageFlight).map Flight.burstTime = l.map Flight.burstTime := by
  rw [List.map_map]
  rfl

/-- A queue of flights that each need at least one cycle needs at least as many cycles
as it has flights. -/
theorem length_le_sum_burstTime (l : List Flight) (h : ∀ f ∈ l, 1 ≤ f.burstTime) :
    (l.length : Int) ≤ (l.map Flight.burstTime).sum := by
  induction l with
  | nil => simp
  | cons x xs ih =>
    have hx := h x (List.mem_cons_self _ _)
    have hxs := ih (fun f hf => h f (List.mem_cons_of_mem _ hf))
    simp only [List.length_cons, List.map_cons, List.sum_cons]
    push_cast
    omega

/-- With the runway invariant, nothing is pending exactly when no cycle is needed. -/
theorem not_pending_of_drained (s : ATCScheduler)
    (hinv : RunwayInv s ∧ ∀ f ∈ s.waitingQueue, 1 ≤ f.burstTime)
    (h0 : s.cyclesToDrain ≤ 0) : s.hasPendingFlights = false := by
  obtain ⟨⟨-, hbusy, -⟩, hburst⟩ := hinv
  have hsum := length_le_sum_burstTime s.waitingQueue hburst
  cases hb : s.isRunwayBusy
  · cases hq : s.waitingQueue with
    | nil => simp [ATCScheduler.hasPendingFlights, hb, hq]
    | cons x xs =>
      simp only [ATCScheduler.cyclesToDrain, hb, hq, List.isEmpty_cons, if_false,
        Bool.false_eq_true] at h0
      rw [hq] at hsum
      simp only [List.length_cons] at hsum
      push_cast at hsum
      omega
  · have h1 := (hbusy hb).1
    simp only [ATCScheduler.cyclesToDrain, hb, if_true] at h0
    have hlen : (0 : Int) ≤ (s.waitingQueue.length : Int) := Int.natCast_nonneg _
    omega

/-- While a cycle is still needed, a cycle keeps the invariant and leaves one cycle
less to run. -/
theorem cyclesToDrain_runCycle {sort : Sorter} (hs : SortContract sort) (s : ATCScheduler)
    (hinv : RunwayInv s ∧ ∀ f ∈ s.waitingQueue, 1 ≤ f.burstTime)
    (hpos : 1 ≤ s.cyclesToDrain) :
    ∃ s1 out, s.runCycle sort = some (s1, out) ∧
      (RunwayInv s1 ∧ ∀ f ∈ s1.waitingQueue, 1 ≤ f.burstTime) ∧
      s1.cyclesToDrain = s.cyclesToDrain - 1 := by
  obtain ⟨s1, out, hrun, hinv1⟩ := runwayInv_runCycle hs s hinv
  refine ⟨s1, out, hrun, hinv1, ?_⟩
  obtain ⟨⟨-, hbusy, hfree⟩, hburst⟩ := hinv
  rcases runCycle_split s with hc | hc | hc
  · obtain ⟨s2, hs2, hrun2⟩ := runCycle_busy sort s hc.1 hc.2
    rw [hrun] at hrun2
    simp only [Option.some.injEq, Prod.mk.injEq] at hrun2
    rw [hrun2.1, hs2]
    simp only [ATCScheduler.cyclesToDrain, hc.1, if_true, map_burstTime_ageFlight]
    omega
  · obtain ⟨s2, hs2, hrun2⟩ := runCycle_empty sort s hc
    rw [hrun] at hrun2
    simp only [Option.some.injEq, Prod.mk.injEq] at hrun2
    rw [hrun2.1, hs2]
    cases hb : s.isRunwayBusy
    · simp [ATCScheduler.cyclesToDrain, hb, hc] at hpos
    · have h1 := (hbusy hb).1
      by_cases h2 : 0 < s.runwayTimeLeft - 1
      · simp [ATCScheduler.cyclesToDrain, hb, hc, h2]
      · have h3 : s.runwayTimeLeft = 1 := by omega
        simp [ATCScheduler.cyclesToDrain, hb, hc, h3]
  · obtain ⟨front, rest, s2, hsort, hs2, hrun2⟩ := runCycle_dispatch hs s hc.1 hc.2
    rw [hrun] at hrun2
    simp only [Option.some.injEq, Prod.mk.injEq] at hrun2
    have hperm : (front :: rest).Perm (s.waitingQueue.map ageFlight) := by
      rw [← hsort]; exact hs.perm _
    have hsum := (hperm.map Flight.burstTime).sum_eq
    rw [map_burstTime_ageFlight, List.map_cons, List.sum_cons] at hsum
    have hne : s.waitingQueue.isEmpty = false := by
      cases hq : s.waitingQueue with
      | nil => exact absurd hq hc.2
      | cons x xs => rfl
    rw [hrun2.1, hs2]
    cases hb : s.isRunwayBusy
    · simp only [ATCScheduler.cyclesToDrain, hb, hne, if_true, if_false,
        Bool.false_eq_true]
      omega
    · have h1 := (hbusy hb).1
      have h3 : s.runwayTimeLeft = 1 := by
        rcases hc.1 with h | h
        · rw [hb] at h; exact absurd h (by decide)
        · omega
      simp only [ATCScheduler.cyclesToDrain, hb, if_true, h3]
      omega

/-- As many cycles as `cyclesToDrain` counts leave nothing pending. -/
theorem drain_calls {sort : Sorter} (hs : SortContract sort) (n : Nat) :
    ∀ s : ATCScheduler, (RunwayInv s ∧ ∀ f ∈ s.waitingQueue, 1 ≤ f.burstTime) →
      s.cyclesToDrain = n →
      ∃ t, s.calls sort (List.replicate n Call.runCycle) = some t ∧
        t.hasPendingFlights = false := by
  induction n with
  | zero =>
    intro s hinv h0
    exact ⟨s, rfl, not_pending_of_drained s hinv (by rw [h0]; simp)⟩
  | succ n ih =>
    intro s hinv hn
    obtain ⟨s1, out, hrun, hinv1, hless⟩ :=
      cyclesToDrain_runCycle hs s hinv (by rw [hn]; push_cast; omega)
    obtain ⟨t, ht, hdone⟩ := ih s1 hinv1 (by rw [hless, hn]; push_cast; omega)
    exact ⟨t, by simpa [List.replicate, ATCScheduler.calls, ATCScheduler.call, hrun] using ht,
      hdone⟩

/-- Once nothing is pending, cycles leave it so. -/
theorem idle_calls (sort : Sorter) (m : Nat) :
    ∀ s : ATCScheduler, s.hasPendingFlights = false →
      ∃ t, s.calls sort (List.replicate m Call.runCycle) = some t ∧
        t.hasPendingFlights = false := by
  induction m with
  | zero => intro s h; exact ⟨s, rfl, h⟩
  | succ m ih =>
    intro s h
    have hb : s.isRunwayBusy = false := by
      cases hb : s.isRunwayBusy
      · rfl
      · simp [ATCScheduler.hasPendingFlights, hb] at h
    have hq : s.waitingQueue = [] := by
      cases hq : s.waitingQueue with
      | nil => rfl
      | cons x xs => simp [ATCScheduler.hasPendingFlights, hb, hq] at h
    obtain ⟨s1, hs1, hrun⟩ := runCycle_empty sort s hq
    have h1 : s1.hasPendingFlights = false := by
      rw [hs1]; simp [ATCScheduler.hasPendingFlights, hb]
    obtain ⟨t, ht, hdone⟩ := ih s1 h1
    exact ⟨t, by simpa [List.replicate, ATCScheduler.calls, ATCScheduler.call, hrun] using ht,
      hdone⟩

/-- C18. Take any state reached from a fresh scheduler by `addFlight` and `runCycle`
calls in which every added flight has `burstTime >= 1`.  With no more flights added, a
number of cycles of at most `runwayTimeLeft + 1 + ` the sum of the `burstTime`s of the
waiting flights all return and reach a state in which `hasPendingFlights` is false, and
from there any number of further cycles return and leave it false. -/
theorem C18_simulation_drains (sort : Sorter) (hs : SortContract sort) (cs : List Call)
    (hburst : ∀ f ∈ addedFlights cs, 1 ≤ f.burstTime) :
    ∃ s, ATCScheduler.init.calls sort cs = some s ∧
      ∃ (n : Nat) (t : ATCScheduler),
        (n : Int) ≤ s.runwayTimeLeft + 1 + (s.waitingQueue.map Flight.burstTime).sum ∧
        s.calls sort (List.replicate n Call.runCycle) = some t ∧
        t.hasPendingFlights = false ∧
        ∀ m : Nat, ∃ t1, t.calls sort (List.replicate m Call.runCycle) = some t1 ∧
          t1.hasPendingFlights = false := by
  have h0 : RunwayInv ATCScheduler.init ∧
      ∀ f ∈ ATCScheduler.init.waitingQueue, 1 ≤ f.burstTime := by
    refine ⟨⟨?_, ?_, ?_⟩, ?_⟩ <;> simp [ATCScheduler.init]
  obtain ⟨s, hcalls, hinv⟩ := runwayInv_calls hs cs ATCScheduler.init h0 hburst
  have hsum := length_le_sum_burstTime s.waitingQueue hinv.2
  have hlen : (0 : Int) ≤ (s.waitingQueue.length : Int) := Int.natCast_nonneg _
  have hnonneg : 0 ≤ s.cyclesToDrain := by
    obtain ⟨⟨-, hbusy, -⟩, -⟩ := hinv
    cases hb : s.isRunwayBusy
    · simp only [ATCScheduler.cyclesToDrain, hb, if_false, Bool.false_eq_true]
      split <;> omega
    · have h1 := (hbusy hb).1
      simp only [ATCScheduler.cyclesToDrain, hb, if_true]
      omega
  have hbound : s.cyclesToDrain ≤
      s.runwayTimeLeft + 1 + (s.waitingQueue.map Flight.burstTime).sum := by
    obtain ⟨⟨-, -, hfree⟩, -⟩ := hinv
    cases hb : s.isRunwayBusy
    · have h1 := hfree hb
      simp only [ATCScheduler.cyclesToDrain, hb, if_false, Bool.false_eq_true]
      split <;> omega
    · simp only [ATCScheduler.cyclesToDrain, hb, if_true]
      omega
  have htoNat : ((s.cyclesToDrain.toNat : Nat) : Int) = s.cyclesToDrain :=
    Int.toNat_of_nonneg hnonneg
  obtain ⟨t, ht, hdone⟩ := drain_calls hs s.cyclesToDrain.toNat s hinv htoNat.symm
  exact ⟨s, hcalls, s.cyclesToDrain.toNat, t, by rw [htoNat]; exact hbound, ht, hdone,
    fun m => idle_calls sort m t hdone⟩

/-- C18 on the calls of `main` up to its sixth cycle: then BA288 has one cycle left and
the five waiting flights need 22 cycles, and 23 cycles drain the scheduler. -/
theorem C18_simulation_drains_witness :
    SortContract insertionSort ∧ (∀ f ∈ addedFlights mainCalls, 1 ≤ f.burstTime) ∧
    (mainSixth.calls insertionSort (List.replicate 23 Call.runCycle)).map
      ATCScheduler.hasPendingFlights = some false ∧
    ∃ s, ATCScheduler.init.calls insertionSort mainCalls = some s ∧
      ∃ (n : Nat) (t : ATCScheduler),
        (n : Int) ≤ s.runwayTimeLeft + 1 + (s.waitingQueue.map Flight.burstTime).sum ∧
        s.calls insertionSort (List.replicate n Call.runCycle) = some t ∧
        t.hasPendingFlights = false ∧
        ∀ m : Nat, ∃ t1, t.calls insertionSort (List.replicate m Call.runCycle) = some t1 ∧
          t1.hasPendingFlights = false :=
  ⟨insertionSort_contract, by decide, by decide,
    C18_simulation_drains insertionSort insertionSort_contract mainCalls (by decide)⟩

/-! ## C19: the status snapshot -/

/-- C19. `printStatus` returns the state it was given, field for field and with the
queue in its order, and prints one status block.  The block holds the cycle number, the
runway line (nothing for a free runway, else id, type name and `runwayTimeLeft` of the
flight on it), the queue size, and the rows.  The rows are a rearrangement of one row for
each waiting flight, made of its id, the name of its type (the names of lines 22-27),
its current `waitingTime` and its current `priority`, and they stand in non-increasing
order of priority. -/
theorem C19_status_snapshot (sort : Sorter) (hs : SortContract sort) (s : ATCScheduler) :
    (flightTypeToString FlightType.EMERGENCY = "Emergency" ∧
     flightTypeToString FlightType.LOW_FUEL = "Low Fuel" ∧
     flightTypeToString FlightType.VIP = "VIP" ∧
     flightTypeToString FlightType.INTERNATIONAL = "International" ∧
     flightTypeToString FlightType.DOMESTIC = "Domestic" ∧
     flightTypeToString FlightType.CARGO = "Cargo") ∧
    (s.printStatus sort).1 = s ∧
    ∃ rows : List StatusRow,
      (s.printStatus sort).2 =
        [Output.status s.simulationCycle
          (if s.isRunwayBusy = true then
            some (s.currentFlightOnRunway.id,
              flightTypeToString s.currentFlightOnRunway.type, s.runwayTimeLeft)
           else none)
          s.waitingQueue.length rows] ∧
      rows.Perm (s.waitingQueue.map (fun f =>
        ({ id := f.id, type := flightTypeToString f.type,
           waitingTime := f.waitingTime, priority := f.priority } : StatusRow))) ∧
      rows.Pairwise (fun a b => b.priority ≤ a.priority) := by
  refine ⟨⟨rfl, rfl, rfl, rfl, rfl, rfl⟩, rfl, ?_⟩
  by_cases hq : s.waitingQueue = []
  · refine ⟨[], ?_, ?_, List.Pairwise.nil⟩
    · simp [ATCScheduler.printStatus, hq]
    · simp [hq]
  · refine ⟨(sort priorityGreater s.waitingQueue).map statusRow, ?_, ?_, ?_⟩
    · simp [ATCScheduler.printStatus, hq]
    · exact (hs.perm s.waitingQueue).map statusRow
    · rw [List.pairwise_map]
      refine (hs.sorted s.waitingQueue).imp ?_
      intro a b hab
      simpa [priorityGreater, statusRow] using hab

/-- C19 on the scheduler with the aged Cargo flight and the fresh VIP flight waiting
behind an Emergency flight: the block printed shows cycle 31, the runway line of EM031
with one cycle left, two flights, and the Cargo row (31 cycles, priority 410) before the
VIP row (0 cycles, priority 0). -/
theorem C19_status_snapshot_witness :
    SortContract insertionSort ∧
    (cargoVipState.printStatus insertionSort).2 =
      [Output.status 31 (some ("EM031", "Emergency", 1)) 2
        [{ id := "FX123", type := "Cargo", waitingTime := 31, priority := 410 },
         { id := "VP001", type := "VIP", waitingTime := 0, priority := 0 }]] ∧
    ((flightTypeToString FlightType.EMERGENCY = "Emergency" ∧
     flightTypeToString FlightType.LOW_FUEL = "Low Fuel" ∧
     flightTypeToString FlightType.VIP = "VIP" ∧
     flightTypeToString FlightType.INTERNATIONAL = "International" ∧
     flightTypeToString FlightType.DOMESTIC = "Domestic" ∧
     flightTypeToString FlightType.CARGO = "Cargo") ∧
    (cargoVipState.printStatus insertionSort).1 = cargoVipState ∧
    ∃ rows : List StatusRow,
      (cargoVipState.printStatus insertionSort).2 =
        [Output.status cargoVipState.simulationCycle
          (if cargoVipState.isRunwayBusy = true then
            some (cargoVipState.currentFlightOnRunway.id,
              flightTypeToString cargoVipState.currentFlightOnRunway.type,
              cargoVipState.runwayTimeLeft)
           else none)
          cargoVipState.waitingQueue.length rows] ∧
      rows.Perm (cargoVipState.waitingQueue.map (fun f =>
        ({ id := f.id, type := flightTypeToString f.type,
           waitingTime := f.waitingTime, priority := f.priority } : StatusRow))) ∧
      rows.Pairwise (fun a b => b.priority ≤ a.priority)) :=
  ⟨insertionSort_contract, by decide,
    C19_status_snapshot insertionSort insertionSort_contract cargoVipState⟩

end ATC

